import Mathlib

/-!
# Micrograph motion model: a shallow embedding of `src/micrograph_model.cpp`

The C++ methods are embedded as pure functions on explicit state.

* `RFLOAT` values are rationals (exact arithmetic); `int` values are integers.
  No integer operation of the embedded code can overflow on the inputs the
  theorems quantify over (`frame + 1 <= n_frames`, `coeff_idx < 36`).
* A method that mutates `*this` returns an `Outcome`: normal return with the
  final state, a `REPORT_ERROR` (or library) exception together with the state
  of the object at the moment of the throw, or undefined behaviour (an array
  access outside the allocated range, a call through a NULL pointer, the end of
  a value-returning function reached without a `return`).
* Console output (`std::cout`, `std::cerr`) is not part of the state.
* Both `getShiftAt` methods are declared `int` and their bodies end without a
  `return` statement (lines 44 and 271): every call that gets that far flows off
  the end of a value-returning function, which is undefined behaviour. The
  embedded `getShiftAt` functions end there; `shiftOutputs` gives the values
  that the statements of the body assign to the two reference outputs.
* `metadata_table.h`, `micrograph_model.h`, `image.h` and the headers they pull
  in are not among the sources. What the embedded methods need from them is
  modelled from the specification and marked as such: the record store, the
  field tags, the model-version tags, `clear`, `getModelVersion`.
  `REPORT_ERROR` is taken to throw (§7 calls these failures fatal), and
  `FOR_ALL_OBJECTS_IN_METADATA_TABLE` to visit the records in stored order (§6).
  `globalShiftX`/`globalShiftY` are `std::vector`s (two-argument `resize`,
  `operator[]`), `coeffX`/`coeffY` are `MultidimArray`s (`resize`, `initZeros`,
  `operator()`); neither element access checks its index.
* `src/jaz/motion/motion_param_estimator.h` declares `MotionParamEstimator` and its
  method `estimateTwoParamsRec` without a body; the search is modelled from §4.3 of
  the specification, with the alignment engine as a quality function of `(rV, rD)`.
-/

namespace Relion

/-! ## Values, outcomes, containers -/

/-- The floating-point type of the sources, taken in exact arithmetic. -/
abbrev RFLOAT := ℚ

/-- File names are plain strings. -/
abbrev FileName := String

/-- The ways in which the embedded code can leave defined behaviour. -/
inductive Undefined where
  | outOfBounds
  | nullDeref
  | missingReturn
  deriving DecidableEq

/-- Result of running a method: normal return with the final state, an
exception with the state reached when it was thrown, or undefined behaviour. -/
inductive Outcome (σ : Type) where
  | ok (s : σ)
  | error (msg : String) (s : σ)
  | undefined (u : Undefined)
  deriving DecidableEq

/-- A loop whose body may throw or be undefined: the body runs on the items in
order, and the first abnormal outcome ends the loop. It embeds the counted `for`
loops (over `List.range n`) and `FOR_ALL_OBJECTS_IN_METADATA_TABLE` (over the
records of the table). -/
def forEach {α σ : Type} (body : σ → α → Outcome σ) : List α → σ → Outcome σ
  | [], s => .ok s
  | a :: rest, s =>
    match body s a with
    | .ok s' => forEach body rest s'
    | .error msg s' => .error msg s'
    | .undefined u => .undefined u

/-- Unchecked element read, `v[i]` on a `std::vector` and `v(i)` on a `MultidimArray`:
defined only inside the allocated range. -/
def readAt (v : List RFLOAT) (i : Int) : Option RFLOAT :=
  if 0 ≤ i ∧ i < v.length then v[i.toNat]? else none

/-- Unchecked element write, `v[i] = x` on a `std::vector` and `v(i) = x` on a
`MultidimArray`: defined only inside the allocated range. -/
def writeAt (v : List RFLOAT) (i : Int) (x : RFLOAT) : Option (List RFLOAT) :=
  if 0 ≤ i ∧ i < v.length then some (v.set i.toNat x) else none

/-- The call `std::vector::resize(n, fill)` with an `int` count: the first `n` old
entries are kept and only new entries receive `fill`; a negative count converts to
a size beyond `max_size` and throws (`none`). -/
def vectorResize (v : List RFLOAT) (n : Int) (fill : RFLOAT) : Option (List RFLOAT) :=
  if n < 0 then none
  else some (v.take n.toNat ++ List.replicate (n.toNat - v.length) fill)

/-- Conversion of a floating-point value to an index: truncation toward zero. -/
def truncIndex (r : RFLOAT) : Int :=
  if 0 ≤ r then ⌊r⌋ else ⌈r⌉

/-! ## The tabular record store (`MetaDataTable`) -/

/-- Modelled from the spec: the field tags of `metadata_label.h` (not among the
sources) that `micrograph_model.cpp` uses; §6 calls them field-tags. -/
inductive EMDLabel where
  | EMDL_IMAGE_SIZEX
  | EMDL_IMAGE_SIZEY
  | EMDL_IMAGE_SIZEZ
  | EMDL_MICROGRAPH_MOVIE_NAME
  | EMDL_MICROGRAPH_GAIN_NAME
  | EMDL_MICROGRAPH_BINNING
  | EMDL_MICROGRAPH_ORIGINAL_PIXEL_SIZE
  | EMDL_MICROGRAPH_DOSE_RATE
  | EMDL_MICROGRAPH_PRE_EXPOSURE
  | EMDL_CTF_VOLTAGE
  | EMDL_MICROGRAPH_MOTION_MODEL_VERSION
  | EMDL_MICROGRAPH_FRAME_NUMBER
  | EMDL_MICROGRAPH_SHIFT_X
  | EMDL_MICROGRAPH_SHIFT_Y
  | EMDL_MICROGRAPH_MOTION_COEFFS_IDX
  | EMDL_MICROGRAPH_MOTION_COEFF
  deriving DecidableEq

open EMDLabel

/-- Modelled from the spec: a scalar stored in a record (§6: integer, real or string). -/
inductive MDValue where
  | int (i : Int)
  | real (r : RFLOAT)
  | str (s : String)
  deriving DecidableEq

/-- Modelled from the spec: a record of `MetaDataTable` (`metadata_table.h` is not
among the sources), per §6 a mapping of field-tag to scalar value. -/
abbrev MDObject := List (EMDLabel × MDValue)

/-- Modelled from the spec: lookup of a field-tag in a record. -/
def MDObject.getValue : MDObject → EMDLabel → Option MDValue
  | [], _ => none
  | (k, w) :: rest, l => if k = l then some w else MDObject.getValue rest l

/-- Modelled from the spec: store a field in a record, replacing an earlier value. -/
def MDObject.setValue : MDObject → EMDLabel → MDValue → MDObject
  | [], l, v => [(l, v)]
  | (k, w) :: rest, l, v =>
    if k = l then (k, v) :: rest else (k, w) :: MDObject.setValue rest l v

/-- Modelled from the spec: `getValue` into an `int` variable; `none` is the
`false` result (field absent or not an integer). -/
def MDObject.getInt (o : MDObject) (l : EMDLabel) : Option Int :=
  match o.getValue l with
  | some (.int i) => some i
  | _ => none

/-- Modelled from the spec: `getValue` into an `RFLOAT` variable. -/
def MDObject.getReal (o : MDObject) (l : EMDLabel) : Option RFLOAT :=
  match o.getValue l with
  | some (.real r) => some r
  | _ => none

/-- Modelled from the spec: `getValue` into a string variable. -/
def MDObject.getString (o : MDObject) (l : EMDLabel) : Option String :=
  match o.getValue l with
  | some (.str s) => some s
  | _ => none

/-- Modelled from the spec: `MetaDataTable` of `metadata_table.h` (not among the
sources), per §6 a named block of ordered records, either a list block or a loop
block. The current record is the last one. -/
structure MetaDataTable where
  name : String
  isList : Bool
  objects : List MDObject
  deriving DecidableEq

/-- Modelled from the spec: a freshly constructed (or cleared) table. -/
def MetaDataTable.empty : MetaDataTable :=
  { name := "", isList := false, objects := [] }

/-- Modelled from the spec: `MetaDataTable::clear`. -/
def MetaDataTable.clear (_MD : MetaDataTable) : MetaDataTable :=
  MetaDataTable.empty

/-- Modelled from the spec: `MetaDataTable::setName`. -/
def MetaDataTable.setName (MD : MetaDataTable) (n : String) : MetaDataTable :=
  { MD with name := n }

/-- Modelled from the spec: `MetaDataTable::setIsList`. -/
def MetaDataTable.setIsList (MD : MetaDataTable) (b : Bool) : MetaDataTable :=
  { MD with isList := b }

/-- Modelled from the spec: `MetaDataTable::addObject` appends an empty record,
which becomes the current one. -/
def MetaDataTable.addObject (MD : MetaDataTable) : MetaDataTable :=
  { MD with objects := MD.objects ++ [[]] }

/-- Modelled from the spec: `MetaDataTable::setValue` stores a field in the
current record. -/
def MetaDataTable.setValue (MD : MetaDataTable) (l : EMDLabel) (v : MDValue) : MetaDataTable :=
  match MD.objects.getLast? with
  | none => MD
  | some o => { MD with objects := MD.objects.dropLast ++ [o.setValue l v] }

/-- Modelled from the spec: `getValue` on a table reads the current record. -/
def MetaDataTable.current (MD : MetaDataTable) : MDObject :=
  match MD.objects.getLast? with
  | none => []
  | some o => o

/-- A persisted file: the blocks written to the stream, in order. -/
abbrev StarFile := List MetaDataTable

/-- Modelled from the spec: `MetaDataTable::write` appends the block to the stream. -/
def MetaDataTable.write (MD : MetaDataTable) (fh : StarFile) : StarFile :=
  fh ++ [MD]

/-- Modelled from the spec: `MetaDataTable::readStar` loads the block of the given
name (block-scoped read, §6); a name that does not occur leaves the table empty. -/
def MetaDataTable.readStar (fh : StarFile) (name : String) : MetaDataTable :=
  match fh.find? (fun b => b.name == name) with
  | some b => b
  | none => MetaDataTable.empty

/-! ## ThirdOrderPolynomialModel -/

/-- Modelled from the spec: the model-version tags `MOTION_MODEL_NULL` and
`MOTION_MODEL_THIRD_ORDER_POLYNOMIAL` are declared in `micrograph_model.h`, which is
not among the sources; §4.2 only calls them a concrete version tag and a reserved
no-model tag, so their values are kept abstract. -/
structure MotionModelTags where
  MOTION_MODEL_NULL : Int
  MOTION_MODEL_THIRD_ORDER_POLYNOMIAL : Int
  deriving DecidableEq

/-- The polynomial model: two coefficient arrays (`MultidimArray<RFLOAT>`). -/
structure ThirdOrderPolynomialModel where
  coeffX : List RFLOAT
  coeffY : List RFLOAT
  deriving DecidableEq

namespace ThirdOrderPolynomialModel

/-- Line 26. -/
def NUM_COEFFS_PER_DIM : Int := 18

/-- Modelled from the spec: `getModelVersion` is defined in `micrograph_model.h`
(not among the sources); per §4.2 it yields the concrete version tag of the model. -/
def getModelVersion (tags : MotionModelTags) (_self : ThirdOrderPolynomialModel) : Int :=
  tags.MOTION_MODEL_THIRD_ORDER_POLYNOMIAL

/-- The accesses `coeff(0)` .. `coeff(n-1)` all stay inside the array. -/
def inRange (v : List RFLOAT) (n : Nat) : Bool :=
  (List.range n).all fun i => (readAt v i).isSome

/-- Lines 32-37 (with `c = coeffX`) and lines 38-43 (with `c = coeffY`): the two
right-hand sides are the same expression in the respective array. -/
def shiftPoly (c : Int → RFLOAT) (z z2 z3 x x2 y y2 xy : RFLOAT) : RFLOAT :=
  (c 0 * z + c 1 * z2 + c 2 * z3)
    + (c 3 * z + c 4 * z2 + c 5 * z3) * x
    + (c 6 * z + c 7 * z2 + c 8 * z3) * x2
    + (c 9 * z + c 10 * z2 + c 11 * z3) * y
    + (c 12 * z + c 13 * z2 + c 14 * z3) * y2
    + (c 15 * z + c 16 * z2 + c 17 * z3) * xy

/-- Lines 29-43: the values that the statements of the body assign to the two reference
outputs `(shiftx, shifty)`; undefined when one of the accesses `coeffX(0..17)`,
`coeffY(0..17)` leaves its array. -/
def shiftOutputs (self : ThirdOrderPolynomialModel) (z x y : RFLOAT) :
    Outcome (RFLOAT × RFLOAT) :=
  if inRange self.coeffX 18 ∧ inRange self.coeffY 18 then
    let coeffX := fun (i : Int) => (readAt self.coeffX i).getD 0
    let coeffY := fun (i : Int) => (readAt self.coeffY i).getD 0
    let x2 := x * x
    let y2 := y * y
    let xy := x * y
    let z2 := z * z
    let z3 := z2 * z
    let shiftx := shiftPoly coeffX z z2 z3 x x2 y y2 xy
    let shifty := shiftPoly coeffY z z2 z3 x x2 y y2 xy
    .ok (shiftx, shifty)
  else .undefined .outOfBounds

/-- Lines 28-44. The function is declared `int`; after the two assignments the body ends
at line 44 without a `return` statement, so a call that gets that far flows off the end
of a value-returning function. -/
def getShiftAt (self : ThirdOrderPolynomialModel) (z x y : RFLOAT) :
    Outcome (RFLOAT × RFLOAT) :=
  match self.shiftOutputs z x y with
  | .undefined u => .undefined u
  | .error msg p => .error msg p
  | .ok _ => .undefined .missingReturn

/-- Lines 53-58 (with `coeffs = coeffX`) and 61-66 (with `coeffs = coeffY`): one
pass of a write loop on the state `(MD, coeff_idx)`. -/
def writeCoeff (coeffs : List RFLOAT) (st : MetaDataTable × Int) (i : Nat) :
    Outcome (MetaDataTable × Int) :=
  match readAt coeffs i with
  | none => .undefined .outOfBounds
  | some c =>
    let MD := st.1.addObject
    let MD := MD.setValue EMDL_MICROGRAPH_MOTION_COEFFS_IDX (.int st.2)
    let MD := MD.setValue EMDL_MICROGRAPH_MOTION_COEFF (.real c)
    .ok (MD, st.2 + 1)

/-- Lines 46-69: the stream after the call. -/
def write (self : ThirdOrderPolynomialModel) (fh : StarFile) (block_name : String) :
    Outcome StarFile :=
  let MD := MetaDataTable.empty
  let MD := MD.setName block_name
  let coeff_idx : Int := 0
  match forEach (writeCoeff self.coeffX) (List.range NUM_COEFFS_PER_DIM.toNat) (MD, coeff_idx) with
  | .undefined u => .undefined u
  | .error msg _ => .error msg fh
  | .ok st =>
    match forEach (writeCoeff self.coeffY) (List.range NUM_COEFFS_PER_DIM.toNat) st with
    | .undefined u => .undefined u
    | .error msg _ => .error msg fh
    | .ok st => .ok (st.1.write fh)

/-- Lines 82-97: the loop body of `read` on the state `(*this, num_read)`. -/
def readObject (st : ThirdOrderPolynomialModel × Int) (o : MDObject) :
    Outcome (ThirdOrderPolynomialModel × Int) :=
  let NUM_COEFFS := NUM_COEFFS_PER_DIM * 2
  match o.getInt EMDL_MICROGRAPH_MOTION_COEFFS_IDX with
  | none =>
    .error "ThirdOrderPolynomialModel coefficients table: missing index or coefficients" st
  | some idx =>
    match o.getReal EMDL_MICROGRAPH_MOTION_COEFF with
    | none =>
      .error "ThirdOrderPolynomialModel coefficients table: missing index or coefficients" st
    | some val =>
      if idx ≥ 0 ∧ idx < NUM_COEFFS_PER_DIM then
        match writeAt st.1.coeffX idx val with
        | none => .undefined .outOfBounds
        | some cx => .ok ({ st.1 with coeffX := cx }, st.2 + 1)
      else if idx ≥ NUM_COEFFS_PER_DIM ∧ idx < NUM_COEFFS then
        match writeAt st.1.coeffY idx val with
        | none => .undefined .outOfBounds
        | some cy => .ok ({ st.1 with coeffY := cy }, st.2 + 1)
      else
        .error "ThirdOrderPolynomialModel coefficients table: wrong index" st

/-- Lines 71-103. Both arrays are resized and zeroed before the first record is
looked at, so the state of the object before the call is not an input. -/
def read (fh : StarFile) (block_name : String) : Outcome ThirdOrderPolynomialModel :=
  let MD := MetaDataTable.readStar fh block_name
  let NUM_COEFFS := NUM_COEFFS_PER_DIM * 2
  let num_read : Int := 0
  let self : ThirdOrderPolynomialModel :=
    { coeffX := List.replicate NUM_COEFFS_PER_DIM.toNat 0,
      coeffY := List.replicate NUM_COEFFS_PER_DIM.toNat 0 }
  match forEach readObject MD.objects (self, num_read) with
  | .undefined u => .undefined u
  | .error msg st => .error msg st.1
  | .ok st =>
    if st.2 ≠ NUM_COEFFS then
      .error "ThirdOrderPolynomialModel coefficients table: incomplete values" st.1
    else .ok st.1

end ThirdOrderPolynomialModel

/-! ## Micrograph -/

/-- The per-micrograph state: the members that `micrograph_model.cpp` reads and
writes. `model` is the owned pointer, `none` being NULL. -/
structure Micrograph where
  width : Int
  height : Int
  n_frames : Int
  binning : RFLOAT
  angpix : RFLOAT
  pre_exposure : RFLOAT
  dose_per_frame : RFLOAT
  voltage : RFLOAT
  fnMovie : FileName
  fnGain : FileName
  globalShiftX : List RFLOAT
  globalShiftY : List RFLOAT
  model : Option ThirdOrderPolynomialModel
  deriving DecidableEq

/-- What probing the movie header reports (lines 106-111): `XSIZE`, `YSIZE` and
`NSIZE` of the image, as the values assigned to the `int` members. -/
structure ImageHeader where
  XSIZE : Int
  YSIZE : Int
  NSIZE : Int
  deriving DecidableEq

namespace Micrograph

/-- Line 25. -/
def NOT_OBSERVED : RFLOAT := -9999

/-- Modelled from the spec: `Micrograph::clear` is defined in `micrograph_model.h`
(not among the sources); §4.2 says that `read` fully resets state with it: sizes
zero, binning 1, optional scalars unset, names empty, no shifts, no model. -/
def clear (_self : Micrograph) : Micrograph :=
  { width := 0, height := 0, n_frames := 0, binning := 1, angpix := -1,
    pre_exposure := -1, dose_per_frame := -1, voltage := -1, fnMovie := "",
    fnGain := "", globalShiftX := [], globalShiftY := [], model := none }

/-- Lines 105-120, with the header that `Ihead.read(fnMovie, false)` reports. -/
def setMovie (self : Micrograph) (fnMovie fnGain : FileName) (binning : RFLOAT)
    (Ihead : ImageHeader) : Outcome Micrograph :=
  let s := { self with width := Ihead.XSIZE, height := Ihead.YSIZE, n_frames := Ihead.NSIZE }
  let s := { s with binning := binning }
  match vectorResize s.globalShiftX s.n_frames NOT_OBSERVED with
  | none => .error "std::length_error" s
  | some gx =>
    let s := { s with globalShiftX := gx }
    match vectorResize s.globalShiftY s.n_frames NOT_OBSERVED with
    | none => .error "std::length_error" s
    | some gy =>
      let s := { s with globalShiftY := gy }
      .ok { s with fnMovie := fnMovie, fnGain := fnGain }

/-- Lines 188-198: the body of the loop over the records of `global_shift`. -/
def readGlobalShift (s : Micrograph) (o : MDObject) : Outcome Micrograph :=
  match o.getInt EMDL_MICROGRAPH_FRAME_NUMBER with
  | none => .error "MicrographModel::read: incorrect global_shift table" s
  | some frame =>
    match o.getReal EMDL_MICROGRAPH_SHIFT_X with
    | none => .error "MicrographModel::read: incorrect global_shift table" s
    | some shiftX =>
      match o.getReal EMDL_MICROGRAPH_SHIFT_Y with
      | none => .error "MicrographModel::read: incorrect global_shift table" s
      | some shiftY =>
        match writeAt s.globalShiftX (frame - 1) shiftX with
        | none => .undefined .outOfBounds
        | some gx =>
          match writeAt s.globalShiftY (frame - 1) shiftY with
          | none => .undefined .outOfBounds
          | some gy => .ok { s with globalShiftX := gx, globalShiftY := gy }

/-- Lines 167-179: the model-version branch. `model_version0` is the indeterminate
content of the uninitialised local `model_version`, which a failed `getValue`
leaves untouched. -/
def readModel (tags : MotionModelTags) (model_version0 : Int) (s : Micrograph)
    (MDglobal : MetaDataTable) (fh : StarFile) : Outcome Micrograph :=
  match MDglobal.current.getInt EMDL_MICROGRAPH_MOTION_MODEL_VERSION with
  | none =>
    let model_version := model_version0
    let s :=
      if model_version = tags.MOTION_MODEL_THIRD_ORDER_POLYNOMIAL then
        { s with model := some { coeffX := [], coeffY := [] } }
      else if model_version = tags.MOTION_MODEL_NULL then
        { s with model := none }
      else s
    match s.model with
    | none => .undefined .nullDeref
    | some _ =>
      match ThirdOrderPolynomialModel.read fh "local_motion_model" with
      | .ok m => .ok { s with model := some m }
      | .error msg m => .error msg { s with model := some m }
      | .undefined u => .undefined u
  | some _ => .ok { s with model := none }

/-- Lines 123-200. `fn_in` is the content of the named file, `none` when the
stream cannot be opened. -/
def read (tags : MotionModelTags) (model_version0 : Int) (self : Micrograph)
    (fn_in : Option StarFile) : Outcome Micrograph :=
  let s := self.clear
  match fn_in with
  | none => .error "MicrographModel::read: File cannot be read." s
  | some fh =>
    let MDglobal := MetaDataTable.readStar fh "general"
    match MDglobal.current.getInt EMDL_IMAGE_SIZEX with
    | none => .error "MicrographModel::read: insufficient general information" s
    | some width =>
      let s := { s with width := width }
      match MDglobal.current.getInt EMDL_IMAGE_SIZEY with
      | none => .error "MicrographModel::read: insufficient general information" s
      | some height =>
        let s := { s with height := height }
        match MDglobal.current.getInt EMDL_IMAGE_SIZEZ with
        | none => .error "MicrographModel::read: insufficient general information" s
        | some n_frames =>
          let s := { s with n_frames := n_frames }
          match MDglobal.current.getString EMDL_MICROGRAPH_MOVIE_NAME with
          | none => .error "MicrographModel::read: insufficient general information" s
          | some fnMovie =>
            let s := { s with fnMovie := fnMovie }
            match vectorResize s.globalShiftX s.n_frames NOT_OBSERVED with
            | none => .error "std::length_error" s
            | some gx =>
              let s := { s with globalShiftX := gx }
              match vectorResize s.globalShiftY s.n_frames NOT_OBSERVED with
              | none => .error "std::length_error" s
              | some gy =>
                let s := { s with globalShiftY := gy }
                let s := { s with fnGain :=
                  (MDglobal.current.getString EMDL_MICROGRAPH_GAIN_NAME).getD "" }
                let s := { s with binning :=
                  (MDglobal.current.getReal EMDL_MICROGRAPH_BINNING).getD 1 }
                let s := { s with angpix :=
                  (MDglobal.current.getReal EMDL_MICROGRAPH_ORIGINAL_PIXEL_SIZE).getD (-1) }
                let s := { s with pre_exposure :=
                  (MDglobal.current.getReal EMDL_MICROGRAPH_PRE_EXPOSURE).getD (-1) }
                let s := { s with dose_per_frame :=
                  (MDglobal.current.getReal EMDL_MICROGRAPH_DOSE_RATE).getD (-1) }
                let s := { s with voltage :=
                  (MDglobal.current.getReal EMDL_CTF_VOLTAGE).getD (-1) }
                match readModel tags model_version0 s MDglobal fh with
                | .error msg s => .error msg s
                | .undefined u => .undefined u
                | .ok s =>
                  let MDglobal := MetaDataTable.readStar fh "global_shift"
                  forEach readGlobalShift MDglobal.objects s

/-- Lines 212-239: the `general` block as handed to `MD.write`. -/
def writeGeneral (tags : MotionModelTags) (self : Micrograph) : MetaDataTable :=
  let MD := MetaDataTable.empty
  let MD := MD.setName "general"
  let MD := MD.setIsList true
  let MD := MD.addObject
  let MD := MD.setValue EMDL_IMAGE_SIZEX (.int self.width)
  let MD := MD.setValue EMDL_IMAGE_SIZEY (.int self.height)
  let MD := MD.setValue EMDL_IMAGE_SIZEZ (.int self.n_frames)
  let MD := MD.setValue EMDL_MICROGRAPH_MOVIE_NAME (.str self.fnMovie)
  let MD := if self.fnGain ≠ "" then
    MD.setValue EMDL_MICROGRAPH_GAIN_NAME (.str self.fnGain) else MD
  let MD := MD.setValue EMDL_MICROGRAPH_BINNING (.real self.binning)
  let MD := if self.angpix ≠ -1 then
    MD.setValue EMDL_MICROGRAPH_ORIGINAL_PIXEL_SIZE (.real self.angpix) else MD
  let MD := if self.dose_per_frame ≠ -1 then
    MD.setValue EMDL_MICROGRAPH_DOSE_RATE (.real self.dose_per_frame) else MD
  let MD := if self.pre_exposure ≠ -1 then
    MD.setValue EMDL_MICROGRAPH_PRE_EXPOSURE (.real self.pre_exposure) else MD
  let MD := if self.voltage ≠ -1 then
    MD.setValue EMDL_CTF_VOLTAGE (.real self.voltage) else MD
  match self.model with
  | some m =>
    MD.setValue EMDL_MICROGRAPH_MOTION_MODEL_VERSION (.int (m.getModelVersion tags))
  | none =>
    MD.setValue EMDL_MICROGRAPH_MOTION_MODEL_VERSION (.int tags.MOTION_MODEL_NULL)

/-- Lines 244-249: the body of the loop that fills the `global_shift` block. -/
def writeGlobalShift (self : Micrograph) (MD : MetaDataTable) (frame : Nat) :
    Outcome MetaDataTable :=
  match readAt self.globalShiftX frame with
  | none => .undefined .outOfBounds
  | some gx =>
    match readAt self.globalShiftY frame with
    | none => .undefined .outOfBounds
    | some gy =>
      let MD := MD.addObject
      let MD := MD.setValue EMDL_MICROGRAPH_FRAME_NUMBER (.int (frame + 1))
      let MD := MD.setValue EMDL_MICROGRAPH_SHIFT_X (.real gx)
      let MD := MD.setValue EMDL_MICROGRAPH_SHIFT_Y (.real gy)
      .ok MD

/-- Lines 203-258: the content of the written file. `fhOpen` tells whether the
output stream could be opened. -/
def write (tags : MotionModelTags) (self : Micrograph) (fhOpen : Bool) : Outcome StarFile :=
  let fh : StarFile := []
  if !fhOpen then .error "Micrograph::write: Cannot write file" fh
  else
    let MD := writeGeneral tags self
    let fh := MD.write fh
    let MD := MD.clear
    let MD := MD.setName "global_shift"
    match forEach (writeGlobalShift self) (List.range self.n_frames.toNat) MD with
    | .undefined u => .undefined u
    | .error msg _ => .error msg fh
    | .ok MD =>
      let fh := MD.write fh
      match self.model with
      | some m => m.write fh "local_motion_model"
      | none => .ok fh

/-- Lines 261-270: the values that the statements of the body assign to the two reference
outputs `(shiftx, shifty)`, with the assignments of the callee for the call of line 262.
The index `frame - 1` is a floating-point value converted to a vector index. -/
def shiftOutputs (self : Micrograph) (frame x y : RFLOAT) : Outcome (RFLOAT × RFLOAT) :=
  let r : Outcome (RFLOAT × RFLOAT) :=
    match self.model with
    | some m => m.shiftOutputs frame x y
    | none => .ok (0, 0)
  match r with
  | .undefined u => .undefined u
  | .error msg p => .error msg p
  | .ok (shiftx, shifty) =>
    match readAt self.globalShiftX (truncIndex (frame - 1)) with
    | none => .undefined .outOfBounds
    | some gx =>
      let shiftx := shiftx + gx
      match readAt self.globalShiftY (truncIndex (frame - 1)) with
      | none => .undefined .outOfBounds
      | some gy =>
        let shifty := shifty + gy
        .ok (shiftx, shifty)

/-- Lines 260-271. With a model, line 262 calls the model's `getShiftAt`, which ends
without a `return`. Without a model the body reads both shift vectors and then ends at
line 271 without a `return` statement, although the function is declared `int`. -/
def getShiftAt (self : Micrograph) (frame x y : RFLOAT) : Outcome (RFLOAT × RFLOAT) :=
  let r : Outcome (RFLOAT × RFLOAT) :=
    match self.model with
    | some m => m.getShiftAt frame x y
    | none => .ok (0, 0)
  match r with
  | .undefined u => .undefined u
  | .error msg p => .error msg p
  | .ok _ =>
    match readAt self.globalShiftX (truncIndex (frame - 1)) with
    | none => .undefined .outOfBounds
    | some _ =>
      match readAt self.globalShiftY (truncIndex (frame - 1)) with
      | none => .undefined .outOfBounds
      | some _ => .undefined .missingReturn

/-- Lines 273-282. -/
def setGlobalShift (self : Micrograph) (frame : Int) (shiftx shifty : RFLOAT) :
    Outcome Micrograph :=
  if frame ≤ 0 ∨ frame > self.n_frames then
    .error "Micrograph::setGlobalShift() frame out of range" self
  else
    let frame := frame - 1
    match writeAt self.globalShiftX frame shiftx with
    | none => .undefined .outOfBounds
    | some gx =>
      let s := { self with globalShiftX := gx }
      match writeAt s.globalShiftY frame shifty with
      | none => .undefined .outOfBounds
      | some gy => .ok { s with globalShiftY := gy }

end Micrograph

/-! ## Specification-side definitions -/

/-- The six spatial basis terms `(1, x, x^2, y, y^2, x*y)` in the order the
specification lists them. -/
def spatialBasis (x y : RFLOAT) : Nat → RFLOAT
  | 0 => 1
  | 1 => x
  | 2 => x ^ 2
  | 3 => y
  | 4 => y ^ 2
  | _ => x * y

/-- The polynomial as the specification words it: the sum over the spatial term
`k` and the power `j + 1` of `z` of `coeff[3k+j] * z^(j+1) * s_k`. -/
def specShift (coeff : List RFLOAT) (z x y : RFLOAT) : RFLOAT :=
  ∑ k in Finset.range 6, ∑ j in Finset.range 3,
    coeff.getD (3 * k + j) 0 * z ^ (j + 1) * spatialBasis x y k


/-- A record of the `global_shift` block: frame number, shift in x, shift in y. -/
def shiftRecord (frame : Int) (gx gy : RFLOAT) : MDObject :=
  [(EMDL_MICROGRAPH_FRAME_NUMBER, .int frame), (EMDL_MICROGRAPH_SHIFT_X, .real gx),
   (EMDL_MICROGRAPH_SHIFT_Y, .real gy)]

/-- A record of a coefficient block: coefficient index and value. -/
def coeffRecord (idx : Int) (c : RFLOAT) : MDObject :=
  [(EMDL_MICROGRAPH_MOTION_COEFFS_IDX, .int idx), (EMDL_MICROGRAPH_MOTION_COEFF, .real c)]

/-- The `global_shift` block in closed form: record `i` carries frame number `i + 1`
and the shifts of slot `i`. -/
def shiftBlock (gx gy : List RFLOAT) (n : Nat) : MetaDataTable :=
  { name := "global_shift", isList := false,
    objects := (List.range n).map fun (i : Nat) =>
      shiftRecord ((i : Int) + 1) (gx.getD i 0) (gy.getD i 0) }

/-- The coefficient block in closed form: 18 records for `coeffX` with indices 0 to 17,
then 18 records for `coeffY` with indices 18 to 35. -/
def coeffBlock (m : ThirdOrderPolynomialModel) (block_name : String) : MetaDataTable :=
  { name := block_name, isList := false,
    objects :=
      ((List.range 18).map fun (i : Nat) => coeffRecord (0 + (i : Int)) (m.coeffX.getD i 0))
      ++ ((List.range 18).map fun (i : Nat) =>
            coeffRecord (0 + 18 + (i : Int)) (m.coeffY.getD i 0)) }

/-! ## Concrete inputs used in evaluations -/

/-- Tags used for evaluations: no-model tag 0, third-order tag 1. -/
def exampleTags : MotionModelTags :=
  { MOTION_MODEL_NULL := 0, MOTION_MODEL_THIRD_ORDER_POLYNOMIAL := 1 }

/-- A model with `coeffX[0] = 1` and every other coefficient zero. -/
def exampleModel : ThirdOrderPolynomialModel :=
  { coeffX := 1 :: List.replicate 17 0, coeffY := List.replicate 18 0 }

/-- A two-frame micrograph without a model whose first frame has been observed. -/
def exampleMicrograph : Micrograph :=
  { width := 4, height := 5, n_frames := 2, binning := 1, angpix := -1,
    pre_exposure := -1, dose_per_frame := -1, voltage := -1, fnMovie := "movie.mrc",
    fnGain := "", globalShiftX := [5, Micrograph.NOT_OBSERVED],
    globalShiftY := [7, Micrograph.NOT_OBSERVED], model := none }

/-- The same micrograph owning `exampleModel`. -/
def exampleMicrographWithModel : Micrograph :=
  { exampleMicrograph with model := some exampleModel }

/-- A coefficient block that is one record short: indices 0 to 34, all values zero. -/
def exampleShortBlock : MetaDataTable :=
  { name := "local_motion_model", isList := false,
    objects := (List.range 35).map fun (i : Nat) => coeffRecord (i : Int) 0 }


/-- A record that carries all three fields of a `global_shift` record. -/
def IsShiftRecord (o : MDObject) (frame : Int) (shiftX shiftY : RFLOAT) : Prop :=
  MDObject.getInt o EMDL_MICROGRAPH_FRAME_NUMBER = some frame ∧
  MDObject.getReal o EMDL_MICROGRAPH_SHIFT_X = some shiftX ∧
  MDObject.getReal o EMDL_MICROGRAPH_SHIFT_Y = some shiftY

/-- The invariant of the data model: both shift arrays have length `n_frames`. -/
def Micrograph.ShiftsMatchFrames (M : Micrograph) : Prop :=
  (M.globalShiftX.length : Int) = M.n_frames ∧ (M.globalShiftY.length : Int) = M.n_frames

/-- Whether a record is a complete `global_shift` record with the given content can be
computed. -/
instance IsShiftRecord.decidable (o : MDObject) (frame : Int) (shiftX shiftY : RFLOAT) :
    Decidable (IsShiftRecord o frame shiftX shiftY) := by
  unfold IsShiftRecord
  infer_instance

/-- Whether a micrograph satisfies the length invariant can be computed. -/
instance Micrograph.ShiftsMatchFrames.decidable (M : Micrograph) :
    Decidable M.ShiftsMatchFrames := by
  unfold Micrograph.ShiftsMatchFrames
  infer_instance

/-- A file for two frames whose `global_shift` block holds a record with frame number
1000000000 followed by a record that carries only a frame number. -/
def exampleBadShiftFile : StarFile :=
  [Micrograph.writeGeneral exampleTags exampleMicrograph,
   { name := "global_shift", isList := false,
     objects := [shiftRecord 1000000000 1 1, [(EMDL_MICROGRAPH_FRAME_NUMBER, MDValue.int 1)]] }]

/-- A file for two frames whose `global_shift` block names frame 1 twice: first with the
shifts `(10, 20)`, then frame 2 with `(1, 2)`, then frame 1 again with `(30, 40)`. -/
def exampleDuplicateShiftFile : StarFile :=
  [Micrograph.writeGeneral exampleTags exampleMicrograph,
   { name := "global_shift", isList := false,
     objects := [shiftRecord 1 10 20, shiftRecord 2 1 2, shiftRecord 1 30 40] }]

/-- The single record of a general block for two frames that names model version 7. -/
def exampleUnknownVersionRecord : MDObject :=
  [(EMDL_IMAGE_SIZEX, MDValue.int 4), (EMDL_IMAGE_SIZEY, MDValue.int 5),
   (EMDL_IMAGE_SIZEZ, MDValue.int 2), (EMDL_MICROGRAPH_MOVIE_NAME, MDValue.str "movie.mrc"),
   (EMDL_MICROGRAPH_MOTION_MODEL_VERSION, MDValue.int 7)]

/-- A file whose general block names model version 7, a tag that is neither of
`exampleTags`, followed by a complete `global_shift` block for two frames. -/
def exampleUnknownVersionFile : StarFile :=
  [{ name := "general", isList := true, objects := [exampleUnknownVersionRecord] },
   { name := "global_shift", isList := false,
     objects := [shiftRecord 1 10 20, shiftRecord 2 1 2] }]

/-- A file for two frames whose second `global_shift` record carries only a frame number,
after a complete record for frame 1. -/
def exampleMissingShiftFile : StarFile :=
  [Micrograph.writeGeneral exampleTags exampleMicrograph,
   { name := "global_shift", isList := false,
     objects := [shiftRecord 1 10 20, [(EMDL_MICROGRAPH_FRAME_NUMBER, MDValue.int 2)]] }]

/-- A coefficient block of 36 well-formed records that all carry index 0; record `i`
carries the value `i + 1`. -/
def exampleRepeatedBlock : MetaDataTable :=
  { name := "local_motion_model", isList := false,
    objects := (List.range 36).map fun (i : Nat) => coeffRecord 0 ((i : RFLOAT) + 1) }

/-! ## Parameter search (`src/jaz/motion/motion_param_estimator.h`) -/

/-- The data members that `motion_param_estimator.h` declares. The two collaborators
`motionRefiner` and `alignmentSet` are replaced by the quality function that is handed to
the search. -/
structure MotionParamEstimator where
  ready : Bool
  estim2 : Bool
  estim3 : Bool
  maxRange : Int
  recursions : Int
  steps : Int
  rV : RFLOAT
  rD : RFLOAT
  rA : RFLOAT

namespace MotionParamEstimator

/-- Modelled from the spec: the body of `estimateTwoParamsRec` is not among the sources
(the header only declares it). §4.3: for each parameter, `steps` evenly spaced candidate
values spanning the current range centred on the current best estimate. -/
def candidates (center range : RFLOAT) (steps : Nat) : List RFLOAT :=
  (List.range steps).map fun (i : Nat) =>
    center - range + 2 * range * (i : RFLOAT) / ((steps : RFLOAT) - 1)

/-- Modelled from the spec: §4.3 selects the trial tuple that minimises the score; the
tuples are visited in order and a later tuple replaces the best one only when its score is
strictly lower. -/
def argmin (score : RFLOAT → RFLOAT → RFLOAT) :
    List (RFLOAT × RFLOAT) → RFLOAT × RFLOAT → RFLOAT × RFLOAT
  | [], best => best
  | p :: rest, best =>
    argmin score rest (if score p.1 p.2 < score best.1 best.2 then p else best)

/-- Modelled from the spec: one recursion level of §4.3, the Cartesian product of the
candidates of both parameters and the tuple of lowest score among them. -/
def gridLevel (score : RFLOAT → RFLOAT → RFLOAT) (steps : Nat) (best : RFLOAT × RFLOAT)
    (range : RFLOAT) : RFLOAT × RFLOAT :=
  match List.product (candidates best.1 range steps) (candidates best.2 range steps) with
  | [] => best
  | p :: rest => argmin score rest p

/-- Modelled from the spec: §4.3 repeats the level `recursions` times; each level starts
from the best tuple of the level before and halves the range. -/
def search (score : RFLOAT → RFLOAT → RFLOAT) (steps : Nat) :
    Nat → RFLOAT × RFLOAT → RFLOAT → RFLOAT × RFLOAT
  | 0, best, _ => best
  | k + 1, best, range => search score steps k (gridLevel score steps best range) (range / 2)

/-- Modelled from the spec: `estimateTwoParamsRec` (declared in the header, defined
outside the sources) as §4.3 describes it: the search over `(rV, rD)` that starts at the
configured values with range `maxRange`. The result is the pair of best estimates. -/
def estimateTwoParamsRec (self : MotionParamEstimator) (score : RFLOAT → RFLOAT → RFLOAT) :
    RFLOAT × RFLOAT :=
  search score self.steps.toNat self.recursions.toNat (self.rV, self.rD) (self.maxRange : RFLOAT)

end MotionParamEstimator

/-- A paraboloid in `(v, d)` with minimum value `c0` at `(a, b)`; it is strictly convex
exactly when `0 < A` and `0 < A * C - B ^ 2`. -/
def paraboloid (A B C a b c0 : RFLOAT) (v d : RFLOAT) : RFLOAT :=
  A * (v - a) ^ 2 + 2 * B * (v - a) * (d - b) + C * (d - b) ^ 2 + c0

/-- An estimator configured with `maxRange = 8`, `steps = 5`, `recursions = 3`, started at
`(rV, rD) = (0, 0)`. -/
def exampleEstimator : MotionParamEstimator :=
  { ready := true, estim2 := true, estim3 := false, maxRange := 8, recursions := 3,
    steps := 5, rV := 0, rD := 0, rA := 0 }

/-! ## Basic facts about the containers -/

theorem forEach_append {α σ : Type} (body : σ → α → Outcome σ) (as bs : List α) (s : σ) :
    forEach body (as ++ bs) s =
      match forEach body as s with
      | .ok s' => forEach body bs s'
      | .error msg s' => .error msg s'
      | .undefined u => .undefined u := by
  induction as generalizing s with
  | nil => simp [forEach]
  | cons a rest ih =>
    simp only [List.cons_append, forEach]
    cases body s a with
    | ok s' => simpa using ih s'
    | error msg s' => rfl
    | undefined u => rfl

theorem readAt_of_lt (v : List RFLOAT) (i : Nat) (h : i < v.length) :
    readAt v (i : Int) = some (v.getD i 0) := by
  simp [readAt, h, List.getD_eq_getElem?_getD, List.getElem?_eq_getElem h]

theorem readAt_eq_getElem? (v : List RFLOAT) (i : Nat) (h : i < v.length) :
    readAt v (i : Int) = v[i]? := by
  simp [readAt, h]

theorem writeAt_of_lt (v : List RFLOAT) (i : Nat) (x : RFLOAT) (h : i < v.length) :
    writeAt v (i : Int) x = some (v.set i x) := by
  simp [writeAt, h]

theorem writeAt_of_ge (v : List RFLOAT) (i : Int) (x : RFLOAT) (h : (v.length : Int) ≤ i) :
    writeAt v i x = none := by
  have : ¬ (0 ≤ i ∧ i < v.length) := by omega
  simp [writeAt, this]

theorem writeAt_length (v w : List RFLOAT) (i : Int) (x : RFLOAT) (h : writeAt v i x = some w) :
    w.length = v.length := by
  unfold writeAt at h
  split at h
  · cases h; simp
  · cases h

theorem inRange_of_le (v : List RFLOAT) (n : Nat) (h : n ≤ v.length) : ThirdOrderPolynomialModel.inRange v n = true := by
  simp only [ThirdOrderPolynomialModel.inRange, List.all_eq_true, List.mem_range]
  intro i hi
  rw [readAt_of_lt v i (by omega)]
  rfl

theorem truncIndex_intCast_sub_one (f : Int) (h : 1 ≤ f) : truncIndex ((f : RFLOAT) - 1) = f - 1 := by
  have e : ((f : RFLOAT) - 1) = ((f - 1 : Int) : RFLOAT) := by push_cast; ring
  have h0 : (0 : RFLOAT) ≤ ((f - 1 : Int) : RFLOAT) := by
    exact_mod_cast (by omega : (0 : Int) ≤ f - 1)
  rw [e, truncIndex, if_pos h0, Int.floor_intCast]

/-! ## The polynomial -/

theorem shiftPoly_eq_specShift (c : List RFLOAT) (h : c.length = 18) (z x y : RFLOAT) :
    ThirdOrderPolynomialModel.shiftPoly (fun i => (readAt c i).getD 0) z (z * z) (z * z * z) x (x * x) y (y * y) (x * y)
      = specShift c z x y := by
  have r : ∀ i : Nat, i < 18 → (readAt c (i : Int)).getD 0 = c.getD i 0 := by
    intro i hi
    rw [readAt_of_lt c i (by omega)]; rfl
  have r0 := r 0 (by omega)
  have r1 := r 1 (by omega)
  have r2 := r 2 (by omega)
  have r3 := r 3 (by omega)
  have r4 := r 4 (by omega)
  have r5 := r 5 (by omega)
  have r6 := r 6 (by omega)
  have r7 := r 7 (by omega)
  have r8 := r 8 (by omega)
  have r9 := r 9 (by omega)
  have r10 := r 10 (by omega)
  have r11 := r 11 (by omega)
  have r12 := r 12 (by omega)
  have r13 := r 13 (by omega)
  have r14 := r 14 (by omega)
  have r15 := r 15 (by omega)
  have r16 := r 16 (by omega)
  have r17 := r 17 (by omega)
  simp only [Nat.cast_ofNat, Nat.cast_zero, Nat.cast_one] at r0 r1 r2 r3 r4 r5 r6 r7 r8
  simp only [Nat.cast_ofNat] at r9 r10 r11 r12 r13 r14 r15 r16 r17
  simp only [ThirdOrderPolynomialModel.shiftPoly, specShift, r0, r1, r2, r3, r4, r5, r6, r7, r8, r9, r10, r11, r12, r13,
    r14, r15, r16, r17, Finset.sum_range_succ, Finset.sum_range_zero, spatialBasis]
  ring

theorem ThirdOrderPolynomialModel.shiftOutputs_eq (m : ThirdOrderPolynomialModel)
    (hx : m.coeffX.length = 18) (hy : m.coeffY.length = 18) (z x y : RFLOAT) :
    m.shiftOutputs z x y = .ok (specShift m.coeffX z x y, specShift m.coeffY z x y) := by
  have gx := inRange_of_le m.coeffX 18 (by omega)
  have gy := inRange_of_le m.coeffY 18 (by omega)
  simp only [ThirdOrderPolynomialModel.shiftOutputs, gx, gy, and_self, if_true]
  rw [shiftPoly_eq_specShift _ hx, shiftPoly_eq_specShift _ hy]

/-- The values that lines 32-43 assign: with 18 coefficients per axis, each output is the
sum over the six spatial terms `s_k` and the three powers of `z` of
`coeff[3k+j] * z^(j+1) * s_k`; with `coeffX[0] = 1` and all other X coefficients zero, the
X output at `(z, x, y) = (2, 0, 0)` is `2`. -/
theorem ThirdOrderPolynomialModel.shiftOutputs_basis (coeffX coeffY : List RFLOAT)
    (hx : coeffX.length = 18) (hy : coeffY.length = 18) (z x y : RFLOAT) :
    (ThirdOrderPolynomialModel.shiftOutputs { coeffX := coeffX, coeffY := coeffY } z x y
      = .ok (∑ k in Finset.range 6, ∑ j in Finset.range 3,
                coeffX.getD (3 * k + j) 0 * z ^ (j + 1) * spatialBasis x y k,
             ∑ k in Finset.range 6, ∑ j in Finset.range 3,
                coeffY.getD (3 * k + j) 0 * z ^ (j + 1) * spatialBasis x y k))
    ∧ ThirdOrderPolynomialModel.shiftOutputs
        { coeffX := 1 :: List.replicate 17 0, coeffY := coeffY } 2 0 0
      = .ok (2, specShift coeffY 2 0 0) := by
  refine ⟨ThirdOrderPolynomialModel.shiftOutputs_eq ⟨coeffX, coeffY⟩ hx hy z x y, ?_⟩
  rw [ThirdOrderPolynomialModel.shiftOutputs_eq ⟨1 :: List.replicate 17 0, coeffY⟩ (by simp) hy]
  have : specShift (1 :: List.replicate 17 0) 2 0 0 = 2 := by
    simp [specShift, Finset.sum_range_succ, spatialBasis, List.replicate]
  rw [this]

/-- With 18 coefficients per axis every access is in range, and the call ends at line 44
without a `return` statement. -/
theorem ThirdOrderPolynomialModel.getShiftAt_missing_return (m : ThirdOrderPolynomialModel)
    (hx : m.coeffX.length = 18) (hy : m.coeffY.length = 18) (z x y : RFLOAT) :
    m.getShiftAt z x y = .undefined .missingReturn := by
  simp only [ThirdOrderPolynomialModel.getShiftAt,
    ThirdOrderPolynomialModel.shiftOutputs_eq m hx hy]

/-- No call of the model's `getShiftAt` returns normally or throws. -/
theorem ThirdOrderPolynomialModel.getShiftAt_undefined (m : ThirdOrderPolynomialModel)
    (z x y : RFLOAT) : ∃ u, m.getShiftAt z x y = .undefined u := by
  by_cases hin : ThirdOrderPolynomialModel.inRange m.coeffX 18 = true ∧
      ThirdOrderPolynomialModel.inRange m.coeffY 18 = true
  · exact ⟨.missingReturn, by
      simp only [ThirdOrderPolynomialModel.getShiftAt, ThirdOrderPolynomialModel.shiftOutputs,
        if_pos hin]⟩
  · exact ⟨.outOfBounds, by
      simp only [ThirdOrderPolynomialModel.getShiftAt, ThirdOrderPolynomialModel.shiftOutputs,
        if_neg hin]⟩

/-- C4, evaluated: on the example model (`coeffX[0] = 1`, every other coefficient zero) at
`(z, x, y) = (2, 0, 0)` the statements of lines 32-43 assign `shiftx = 2` and `shifty = 0`,
the values the claim names, but the call does not return them: `getShiftAt` is declared
`int` and its body ends at line 44 without a `return` statement. This holds for every
model and every argument: no call of `getShiftAt` returns normally. -/
theorem C4_getShiftAt_missing_return :
    exampleModel.shiftOutputs 2 0 0 = .ok (2, 0) ∧
    exampleModel.getShiftAt 2 0 0 = .undefined .missingReturn ∧
    ∀ (m : ThirdOrderPolynomialModel) (z x y : RFLOAT),
      ∃ u, m.getShiftAt z x y = .undefined u := by
  refine ⟨?_, ThirdOrderPolynomialModel.getShiftAt_missing_return exampleModel rfl rfl 2 0 0,
    ThirdOrderPolynomialModel.getShiftAt_undefined⟩
  have h := (ThirdOrderPolynomialModel.shiftOutputs_basis (1 :: List.replicate 17 0)
    (List.replicate 18 0) (by simp) (by simp) 2 0 0).2
  have e : specShift (List.replicate 18 0) 2 0 0 = 0 := by
    simp [specShift, Finset.sum_range_succ, List.replicate]
  rw [e] at h
  exact h

/-! ## Shift query and shift mutator -/

theorem readAt_frame (v : List RFLOAT) (n f : Int) (hv : (v.length : Int) = n) (h1 : 1 ≤ f)
    (h2 : f ≤ n) : ∃ g, v[(f - 1).toNat]? = some g ∧ readAt v (f - 1) = some g := by
  have hlt : (f - 1).toNat < v.length := by omega
  refine ⟨v[(f - 1).toNat], List.getElem?_eq_getElem hlt, ?_⟩
  have hc : 0 ≤ f - 1 ∧ f - 1 < (v.length : Int) := by omega
  simp [readAt, hc, List.getElem?_eq_getElem hlt]

/-- The values that lines 261-270 assign: for shift arrays of length `n_frames` and an
integer frame `f` with `1 <= f <= n_frames`, the outputs are the polynomial component plus
the stored shifts of slot `f - 1`; the component is `(0, 0)` without a model and the
assignments of the model at `z = f` when a model is present. -/
theorem Micrograph.shiftOutputs_frame (M : Micrograph) (f : Int) (x y : RFLOAT)
    (hx : (M.globalShiftX.length : Int) = M.n_frames)
    (hy : (M.globalShiftY.length : Int) = M.n_frames)
    (h1 : 1 ≤ f) (h2 : f ≤ M.n_frames) :
    ∃ gx gy, M.globalShiftX[(f - 1).toNat]? = some gx ∧ M.globalShiftY[(f - 1).toNat]? = some gy ∧
      (M.model = none → M.shiftOutputs f x y = .ok (0 + gx, 0 + gy)) ∧
      (∀ m px py, M.model = some m → m.shiftOutputs f x y = .ok (px, py) →
        M.shiftOutputs f x y = .ok (px + gx, py + gy)) := by
  obtain ⟨gx, hgx, rx⟩ := readAt_frame M.globalShiftX M.n_frames f hx h1 h2
  obtain ⟨gy, hgy, ry⟩ := readAt_frame M.globalShiftY M.n_frames f hy h1 h2
  refine ⟨gx, gy, hgx, hgy, ?_, ?_⟩
  · intro hm
    simp [Micrograph.shiftOutputs, hm, truncIndex_intCast_sub_one f h1, rx, ry]
  · intro m px py hm hp
    simp [Micrograph.shiftOutputs, hm, hp, truncIndex_intCast_sub_one f h1, rx, ry]

/-- For an integer frame in `[1, n_frames]` every access is in range, and the call ends
without a `return` statement: at line 44 of the callee when a model is present, at line 271
otherwise. -/
theorem Micrograph.getShiftAt_frame_missing_return (M : Micrograph) (f : Int) (x y : RFLOAT)
    (hx : (M.globalShiftX.length : Int) = M.n_frames)
    (hy : (M.globalShiftY.length : Int) = M.n_frames)
    (h1 : 1 ≤ f) (h2 : f ≤ M.n_frames)
    (hmodel : ∀ m, M.model = some m → m.coeffX.length = 18 ∧ m.coeffY.length = 18) :
    M.getShiftAt f x y = .undefined .missingReturn := by
  obtain ⟨gx, -, rx⟩ := readAt_frame M.globalShiftX M.n_frames f hx h1 h2
  obtain ⟨gy, -, ry⟩ := readAt_frame M.globalShiftY M.n_frames f hy h1 h2
  cases hm : M.model with
  | none =>
    simp only [Micrograph.getShiftAt, hm, truncIndex_intCast_sub_one f h1, rx, ry]
  | some m =>
    obtain ⟨h18x, h18y⟩ := hmodel m hm
    simp only [Micrograph.getShiftAt, hm,
      ThirdOrderPolynomialModel.getShiftAt_missing_return m h18x h18y]

/-- No call of `Micrograph::getShiftAt` returns normally or throws. -/
theorem Micrograph.getShiftAt_never_returns (M : Micrograph) (frame x y : RFLOAT) :
    ∃ u, M.getShiftAt frame x y = .undefined u := by
  cases hm : M.model with
  | some m =>
    obtain ⟨u, hu⟩ := ThirdOrderPolynomialModel.getShiftAt_undefined m frame x y
    exact ⟨u, by simp only [Micrograph.getShiftAt, hm, hu]⟩
  | none =>
    cases hrx : readAt M.globalShiftX (truncIndex (frame - 1)) with
    | none => exact ⟨.outOfBounds, by simp only [Micrograph.getShiftAt, hm, hrx]⟩
    | some gx =>
      cases hry : readAt M.globalShiftY (truncIndex (frame - 1)) with
      | none => exact ⟨.outOfBounds, by simp only [Micrograph.getShiftAt, hm, hrx, hry]⟩
      | some gy => exact ⟨.missingReturn, by simp only [Micrograph.getShiftAt, hm, hrx, hry]⟩

/-- C5, evaluated: on the two-frame example micrograph at frame 1 the statements of lines
261-270 assign the polynomial component `(0, 0)` plus the stored shifts `(5, 7)` of slot 0,
the values the claim names, but the call does not return them: `getShiftAt` is declared
`int` and its body ends at line 271 without a `return` statement; with a model the call of
line 262 already ends that way at line 44. No call of `getShiftAt` returns normally. -/
theorem C5_getShiftAt_frame_missing_return :
    exampleMicrograph.shiftOutputs ((1 : Int) : RFLOAT) 0 0 = .ok (0 + 5, 0 + 7) ∧
    exampleMicrograph.getShiftAt ((1 : Int) : RFLOAT) 0 0 = .undefined .missingReturn ∧
    exampleMicrographWithModel.getShiftAt ((1 : Int) : RFLOAT) 0 0
      = .undefined .missingReturn ∧
    ∀ (M : Micrograph) (frame x y : RFLOAT), ∃ u, M.getShiftAt frame x y = .undefined u := by
  refine ⟨?_, ?_, ?_, Micrograph.getShiftAt_never_returns⟩
  · obtain ⟨gx, gy, hgx, hgy, hnone, -⟩ := Micrograph.shiftOutputs_frame exampleMicrograph 1 0 0
      (by decide) (by decide) (by decide) (by decide)
    have ex : gx = 5 := by
      have : exampleMicrograph.globalShiftX[((1 : Int) - 1).toNat]? = some 5 := rfl
      exact Option.some.inj (hgx.symm.trans this)
    have ey : gy = 7 := by
      have : exampleMicrograph.globalShiftY[((1 : Int) - 1).toNat]? = some 7 := rfl
      exact Option.some.inj (hgy.symm.trans this)
    rw [hnone rfl, ex, ey]
  · exact Micrograph.getShiftAt_frame_missing_return exampleMicrograph 1 0 0 (by decide)
      (by decide) (by decide) (by decide) (by intro m hm; cases hm)
  · exact Micrograph.getShiftAt_frame_missing_return exampleMicrographWithModel 1 0 0
      (by decide) (by decide) (by decide) (by decide)
      (by
        intro m hm
        have e : exampleModel = m := Option.some.inj hm
        subst e
        exact ⟨rfl, rfl⟩)

/-- Without a model and with shift arrays of length `n_frames`, for every frame `f` with
`1 <= f <= n_frames`, `setGlobalShift(f, sx, sy)` returns normally and the statements of
`getShiftAt(f, x, y)` on the resulting state assign exactly `(sx, sy)`. -/
theorem Micrograph.set_then_shiftOutputs (M : Micrograph) (f : Int) (sx sy x y : RFLOAT)
    (hm : M.model = none)
    (hx : (M.globalShiftX.length : Int) = M.n_frames)
    (hy : (M.globalShiftY.length : Int) = M.n_frames)
    (h1 : 1 ≤ f) (h2 : f ≤ M.n_frames) :
    ∃ M', M.setGlobalShift f sx sy = .ok M' ∧ M'.shiftOutputs f x y = .ok (sx, sy) ∧
      M'.getShiftAt f x y = .undefined .missingReturn := by
  have hnot : ¬ (f ≤ 0 ∨ f > M.n_frames) := by omega
  have cx : 0 ≤ f - 1 ∧ f - 1 < (M.globalShiftX.length : Int) := by omega
  have cy : 0 ≤ f - 1 ∧ f - 1 < (M.globalShiftY.length : Int) := by omega
  have lx : (f - 1).toNat < M.globalShiftX.length := by omega
  have ly : (f - 1).toNat < M.globalShiftY.length := by omega
  have rx : readAt (M.globalShiftX.set (f - 1).toNat sx) (f - 1) = some sx := by
    unfold readAt
    rw [if_pos (by simpa using cx), List.getElem?_set]
    simp only [if_true, if_pos lx]
  have ry : readAt (M.globalShiftY.set (f - 1).toNat sy) (f - 1) = some sy := by
    unfold readAt
    rw [if_pos (by simpa using cy), List.getElem?_set]
    simp only [if_true, if_pos ly]
  refine ⟨{ M with globalShiftX := M.globalShiftX.set (f - 1).toNat sx,
                   globalShiftY := M.globalShiftY.set (f - 1).toNat sy }, ?_, ?_, ?_⟩
  · simp [Micrograph.setGlobalShift, hnot, writeAt, cx, cy]
  · simp only [Micrograph.shiftOutputs, hm, truncIndex_intCast_sub_one f h1, rx, ry, zero_add]
  · simp only [Micrograph.getShiftAt, hm, truncIndex_intCast_sub_one f h1, rx, ry]

/-- C6, evaluated: on the two-frame example micrograph (no model), `setGlobalShift(2, 3, 4)`
returns normally and the statements of the following `getShiftAt(2, 10, 20)` assign
`(3, 4)`, the values the claim names, but the call does not return them: `getShiftAt` is
declared `int` and its body ends at line 271 without a `return` statement. -/
theorem C6_set_then_get_missing_return :
    ∃ M', exampleMicrograph.setGlobalShift 2 3 4 = .ok M' ∧
      M'.shiftOutputs ((2 : Int) : RFLOAT) 10 20 = .ok (3, 4) ∧
      M'.getShiftAt ((2 : Int) : RFLOAT) 10 20 = .undefined .missingReturn :=
  Micrograph.set_then_shiftOutputs exampleMicrograph 2 3 4 10 20 rfl (by decide) (by decide)
    (by decide) (by decide)

/-- C7: `setGlobalShift(frame, sx, sy)` throws exactly when `frame < 1` or
`frame > n_frames` (so for frame `0` and frame `n_frames + 1`), the exception is the
out-of-range report, and the state of the micrograph at the throw is the state before
the call. -/
theorem C7_setGlobalShift_error (M : Micrograph) (frame : Int) (sx sy : RFLOAT) :
    ((∃ msg s, M.setGlobalShift frame sx sy = .error msg s) ↔ (frame < 1 ∨ frame > M.n_frames))
    ∧ (∀ msg s, M.setGlobalShift frame sx sy = .error msg s →
        s = M ∧ msg = "Micrograph::setGlobalShift() frame out of range")
    ∧ (∃ msg, M.setGlobalShift 0 sx sy = .error msg M)
    ∧ (∃ msg, M.setGlobalShift (M.n_frames + 1) sx sy = .error msg M) := by
  have key : ∀ (fr : Int) (msg : String) (s : Micrograph),
      M.setGlobalShift fr sx sy = .error msg s →
        (fr ≤ 0 ∨ fr > M.n_frames) ∧ s = M ∧
          msg = "Micrograph::setGlobalShift() frame out of range" := by
    intro fr msg s h
    unfold Micrograph.setGlobalShift at h
    split at h
    · rename_i hc
      cases h
      exact ⟨hc, rfl, rfl⟩
    · simp only at h
      split at h
      · cases h
      · split at h <;> cases h
  refine ⟨⟨?_, ?_⟩, ?_, ?_, ?_⟩
  · rintro ⟨msg, s, h⟩
    have := (key frame msg s h).1
    omega
  · intro h
    have hc : frame ≤ 0 ∨ frame > M.n_frames := by omega
    exact ⟨"Micrograph::setGlobalShift() frame out of range", M,
      by simp [Micrograph.setGlobalShift, hc]⟩
  · intro msg s h
    exact (key frame msg s h).2
  · exact ⟨"Micrograph::setGlobalShift() frame out of range",
      by simp [Micrograph.setGlobalShift]⟩
  · have hc : M.n_frames + 1 ≤ 0 ∨ M.n_frames + 1 > M.n_frames := by omega
    exact ⟨"Micrograph::setGlobalShift() frame out of range",
      by simp only [Micrograph.setGlobalShift, hc, if_true]⟩

/-- Witness of C7: frame 3 of the two-frame example micrograph. -/
theorem C7_setGlobalShift_error_witness :
    ((∃ msg s, exampleMicrograph.setGlobalShift 3 1 1 = .error msg s) ↔
        ((3 : Int) < 1 ∨ (3 : Int) > exampleMicrograph.n_frames)) :=
  (C7_setGlobalShift_error exampleMicrograph 3 1 1).1

/-! ## setMovie -/

theorem vectorResize_length (v w : List RFLOAT) (n : Int) (fill : RFLOAT)
    (h : vectorResize v n fill = some w) : (w.length : Int) = n := by
  unfold vectorResize at h
  split at h
  · cases h
  · cases h
    simp only [List.length_append, List.length_take, List.length_replicate]
    omega

theorem vectorResize_nil (n : Nat) (fill : RFLOAT) :
    vectorResize [] (n : Int) fill = some (List.replicate n fill) := by
  simp [vectorResize]

/-- After a `setMovie` that returns normally, both shift arrays have length
`n_frames`, which is the probed frame count. -/
theorem Micrograph.setMovie_length (M M' : Micrograph) (fnMovie fnGain : FileName)
    (binning : RFLOAT) (Ihead : ImageHeader)
    (h : M.setMovie fnMovie fnGain binning Ihead = .ok M') :
    M'.n_frames = Ihead.NSIZE ∧ (M'.globalShiftX.length : Int) = Ihead.NSIZE ∧
      (M'.globalShiftY.length : Int) = Ihead.NSIZE := by
  unfold Micrograph.setMovie at h
  simp only at h
  split at h
  · cases h
  · rename_i gx hgx
    split at h
    · cases h
    · rename_i gy hgy
      cases h
      exact ⟨rfl, vectorResize_length _ _ _ _ hgx, vectorResize_length _ _ _ _ hgy⟩

/-- On a micrograph whose shift arrays are empty, `setMovie` fills both arrays with
`NOT_OBSERVED`. -/
theorem Micrograph.setMovie_of_empty (M : Micrograph) (fnMovie fnGain : FileName)
    (binning : RFLOAT) (x y n : Nat) (hx : M.globalShiftX = []) (hy : M.globalShiftY = []) :
    ∃ M', M.setMovie fnMovie fnGain binning ⟨x, y, n⟩ = .ok M' ∧
      M'.globalShiftX = List.replicate n Micrograph.NOT_OBSERVED ∧
      M'.globalShiftY = List.replicate n Micrograph.NOT_OBSERVED := by
  simp [Micrograph.setMovie, hx, hy, vectorResize_nil]

/-- C8, evaluated: on the example micrograph, whose first frame holds the observed
shift `(5, 7)`, `setMovie` with a probed frame count of 2 returns normally and leaves
`(5, 7)` in the first slot instead of `NOT_OBSERVED`. -/
theorem C8_setMovie_keeps_observed :
    ∃ M', exampleMicrograph.setMovie "other.mrc" "" 1 ⟨4, 5, 2⟩ = .ok M' ∧
      M'.globalShiftX = [5, Micrograph.NOT_OBSERVED] ∧
      M'.globalShiftY = [7, Micrograph.NOT_OBSERVED] ∧
      M'.globalShiftX ≠ List.replicate 2 Micrograph.NOT_OBSERVED := by
  refine ⟨{ exampleMicrograph with fnMovie := "other.mrc" }, ?_, rfl, rfl, by decide⟩
  simp [Micrograph.setMovie, exampleMicrograph, vectorResize]


/-! ## Records and tables -/

theorem MDObject.getValue_setValue (o : MDObject) (l l' : EMDLabel) (v : MDValue) :
    MDObject.getValue (MDObject.setValue o l v) l' =
      if l = l' then some v else MDObject.getValue o l' := by
  induction o with
  | nil =>
    by_cases h : l = l' <;> simp [MDObject.setValue, MDObject.getValue, h]
  | cons a rest ih =>
    obtain ⟨k, w⟩ := a
    by_cases hk : k = l
    · subst hk
      by_cases h : k = l' <;> simp [MDObject.setValue, MDObject.getValue, h]
    · by_cases h : l = l'
      · subst h
        simp [MDObject.setValue, MDObject.getValue, hk, ih]
      · by_cases hk' : k = l'
        · subst hk'
          simp [MDObject.setValue, MDObject.getValue, hk, h]
        · simp [MDObject.setValue, MDObject.getValue, hk, hk', ih, h]

theorem MetaDataTable.setValue_snoc (n : String) (b : Bool) (os : List MDObject) (o : MDObject)
    (l : EMDLabel) (v : MDValue) :
    MetaDataTable.setValue { name := n, isList := b, objects := os ++ [o] } l v =
      { name := n, isList := b, objects := os ++ [MDObject.setValue o l v] } := by
  simp [MetaDataTable.setValue, List.getLast?_concat, List.dropLast_concat]

theorem MetaDataTable.setValue_single (n : String) (b : Bool) (o : MDObject)
    (l : EMDLabel) (v : MDValue) :
    MetaDataTable.setValue { name := n, isList := b, objects := [o] } l v =
      { name := n, isList := b, objects := [MDObject.setValue o l v] } :=
  MetaDataTable.setValue_snoc n b [] o l v

theorem MetaDataTable.ite_single (c : Prop) [Decidable c] (n : String) (b : Bool)
    (o1 o2 : MDObject) :
    (if c then ({ name := n, isList := b, objects := [o1] } : MetaDataTable)
      else { name := n, isList := b, objects := [o2] }) =
      { name := n, isList := b, objects := [if c then o1 else o2] } := by
  split <;> rfl

theorem MDObject.getValue_ite_setValue (c : Prop) [Decidable c] (o : MDObject)
    (l l' : EMDLabel) (v : MDValue) :
    MDObject.getValue (if c then MDObject.setValue o l v else o) l' =
      if c ∧ l = l' then some v else MDObject.getValue o l' := by
  by_cases hc : c <;> simp [hc, MDObject.getValue_setValue]

theorem MetaDataTable.readStar_cons (b : MetaDataTable) (fh : StarFile) (name : String) :
    MetaDataTable.readStar (b :: fh) name =
      if b.name = name then b else MetaDataTable.readStar fh name := by
  by_cases h : b.name = name <;> simp [MetaDataTable.readStar, List.find?_cons, h]

/-! ## The write loops in closed form -/

theorem MetaDataTable.add_shiftRecord (MD : MetaDataTable) (frame : Int) (gx gy : RFLOAT) :
    ((MD.addObject.setValue EMDL_MICROGRAPH_FRAME_NUMBER (.int frame)).setValue
        EMDL_MICROGRAPH_SHIFT_X (.real gx)).setValue EMDL_MICROGRAPH_SHIFT_Y (.real gy) =
      { MD with objects := MD.objects ++ [shiftRecord frame gx gy] } := by
  obtain ⟨n, b, os⟩ := MD
  simp [MetaDataTable.addObject, MetaDataTable.setValue_snoc, MDObject.setValue, shiftRecord]

theorem MetaDataTable.add_coeffRecord (MD : MetaDataTable) (idx : Int) (c : RFLOAT) :
    (MD.addObject.setValue EMDL_MICROGRAPH_MOTION_COEFFS_IDX (.int idx)).setValue
        EMDL_MICROGRAPH_MOTION_COEFF (.real c) =
      { MD with objects := MD.objects ++ [coeffRecord idx c] } := by
  obtain ⟨n, b, os⟩ := MD
  simp [MetaDataTable.addObject, MetaDataTable.setValue_snoc, MDObject.setValue, coeffRecord]

theorem Micrograph.forEach_writeGlobalShift (M : Micrograph) (MD : MetaDataTable) (n : Nat)
    (hx : n ≤ M.globalShiftX.length) (hy : n ≤ M.globalShiftY.length) :
    forEach (Micrograph.writeGlobalShift M) (List.range n) MD =
      .ok { MD with objects := MD.objects ++ (List.range n).map fun (i : Nat) =>
              shiftRecord ((i : Int) + 1) (M.globalShiftX.getD i 0) (M.globalShiftY.getD i 0) } := by
  induction n with
  | zero => simp [forEach]
  | succ n ih =>
    rw [List.range_succ, forEach_append, ih (by omega) (by omega)]
    simp only [forEach, Micrograph.writeGlobalShift,
      readAt_of_lt M.globalShiftX n (by omega), readAt_of_lt M.globalShiftY n (by omega),
      MetaDataTable.add_shiftRecord, List.map_append, List.map_cons, List.map_nil,
      List.append_assoc]

theorem ThirdOrderPolynomialModel.forEach_writeCoeff (c : List RFLOAT) (MD : MetaDataTable)
    (k : Int) (n : Nat) (hc : n ≤ c.length) :
    forEach (ThirdOrderPolynomialModel.writeCoeff c) (List.range n) (MD, k) =
      .ok ({ MD with objects := MD.objects ++ (List.range n).map fun (i : Nat) =>
              coeffRecord (k + (i : Int)) (c.getD i 0) }, k + n) := by
  induction n with
  | zero => simp [forEach]
  | succ n ih =>
    rw [List.range_succ, forEach_append, ih (by omega)]
    simp only [forEach, ThirdOrderPolynomialModel.writeCoeff, readAt_of_lt c n (by omega),
      MetaDataTable.add_coeffRecord, List.map_append, List.map_cons, List.map_nil,
      List.append_assoc, Nat.cast_add, Nat.cast_one, add_assoc]

theorem ThirdOrderPolynomialModel.write_coeffBlock (m : ThirdOrderPolynomialModel) (fh : StarFile)
    (block_name : String) (hx : m.coeffX.length = 18) (hy : m.coeffY.length = 18) :
    m.write fh block_name = .ok (fh ++ [coeffBlock m block_name]) := by
  have e : ThirdOrderPolynomialModel.NUM_COEFFS_PER_DIM.toNat = 18 := rfl
  simp only [ThirdOrderPolynomialModel.write, e,
    ThirdOrderPolynomialModel.forEach_writeCoeff _ _ _ 18 (by omega : 18 ≤ m.coeffX.length),
    ThirdOrderPolynomialModel.forEach_writeCoeff _ _ _ 18 (by omega : 18 ≤ m.coeffY.length)]
  simp [MetaDataTable.write, coeffBlock, MetaDataTable.setName, MetaDataTable.empty]


/-! ## The general block -/

theorem Micrograph.writeGeneral_fields (tags : MotionModelTags) (M : Micrograph) :
    ∃ o : MDObject,
      Micrograph.writeGeneral tags M = { name := "general", isList := true, objects := [o] } ∧
      o.getValue EMDL_IMAGE_SIZEX = some (.int M.width) ∧
      o.getValue EMDL_IMAGE_SIZEY = some (.int M.height) ∧
      o.getValue EMDL_IMAGE_SIZEZ = some (.int M.n_frames) ∧
      o.getValue EMDL_MICROGRAPH_MOVIE_NAME = some (.str M.fnMovie) ∧
      o.getValue EMDL_MICROGRAPH_GAIN_NAME =
        (if M.fnGain ≠ "" then some (.str M.fnGain) else none) ∧
      o.getValue EMDL_MICROGRAPH_BINNING = some (.real M.binning) ∧
      o.getValue EMDL_MICROGRAPH_ORIGINAL_PIXEL_SIZE =
        (if M.angpix ≠ -1 then some (.real M.angpix) else none) ∧
      o.getValue EMDL_MICROGRAPH_DOSE_RATE =
        (if M.dose_per_frame ≠ -1 then some (.real M.dose_per_frame) else none) ∧
      o.getValue EMDL_MICROGRAPH_PRE_EXPOSURE =
        (if M.pre_exposure ≠ -1 then some (.real M.pre_exposure) else none) ∧
      o.getValue EMDL_CTF_VOLTAGE =
        (if M.voltage ≠ -1 then some (.real M.voltage) else none) ∧
      o.getValue EMDL_MICROGRAPH_MOTION_MODEL_VERSION =
        some (.int (match M.model with
          | some m => m.getModelVersion tags
          | none => tags.MOTION_MODEL_NULL)) := by
  cases hm : M.model with
  | none =>
    simp only [Micrograph.writeGeneral, hm, MetaDataTable.empty, MetaDataTable.setName,
      MetaDataTable.setIsList, MetaDataTable.addObject, List.nil_append,
      MetaDataTable.setValue_single, MetaDataTable.ite_single]
    refine ⟨_, rfl, ?_, ?_, ?_, ?_, ?_, ?_, ?_, ?_, ?_, ?_, ?_⟩ <;>
      simp only [MDObject.getValue_setValue, MDObject.getValue_ite_setValue] <;>
      simp [MDObject.getValue]
  | some m =>
    simp only [Micrograph.writeGeneral, hm, MetaDataTable.empty, MetaDataTable.setName,
      MetaDataTable.setIsList, MetaDataTable.addObject, List.nil_append,
      MetaDataTable.setValue_single, MetaDataTable.ite_single]
    refine ⟨_, rfl, ?_, ?_, ?_, ?_, ?_, ?_, ?_, ?_, ?_, ?_, ?_⟩ <;>
      simp only [MDObject.getValue_setValue, MDObject.getValue_ite_setValue] <;>
      simp [MDObject.getValue]

theorem Micrograph.write_blocks (tags : MotionModelTags) (M : Micrograph)
    (hx : (M.globalShiftX.length : Int) = M.n_frames)
    (hy : (M.globalShiftY.length : Int) = M.n_frames)
    (hmodel : ∀ m, M.model = some m → m.coeffX.length = 18 ∧ m.coeffY.length = 18) :
    Micrograph.write tags M true =
      .ok ([Micrograph.writeGeneral tags M,
            shiftBlock M.globalShiftX M.globalShiftY M.n_frames.toNat] ++
          (match M.model with
            | some m => [coeffBlock m "local_motion_model"]
            | none => [])) := by
  have lx : M.n_frames.toNat ≤ M.globalShiftX.length := by omega
  have ly : M.n_frames.toNat ≤ M.globalShiftY.length := by omega
  cases hm : M.model with
  | none =>
    simp [Micrograph.write, Micrograph.forEach_writeGlobalShift M _ _ lx ly, hm,
      MetaDataTable.write, MetaDataTable.clear, MetaDataTable.empty, MetaDataTable.setName,
      shiftBlock]
  | some m =>
    obtain ⟨h18x, h18y⟩ := hmodel m hm
    simp [Micrograph.write, Micrograph.forEach_writeGlobalShift M _ _ lx ly, hm,
      MetaDataTable.write, MetaDataTable.clear, MetaDataTable.empty, MetaDataTable.setName,
      shiftBlock, ThirdOrderPolynomialModel.write_coeffBlock m _ _ h18x h18y]

/-! ## Reading the global shifts -/

theorem set_take_drop (xs l : List RFLOAT) (k : Nat) (hxs : k < xs.length) (hl : k < l.length) :
    (xs.take k ++ l.drop k).set k (xs.getD k 0) = xs.take (k + 1) ++ l.drop (k + 1) := by
  induction k generalizing xs l with
  | zero =>
    cases xs with
    | nil => simp at hxs
    | cons a xs =>
      cases l with
      | nil => simp at hl
      | cons b l => simp
  | succ k ih =>
    cases xs with
    | nil => simp at hxs
    | cons a xs =>
      cases l with
      | nil => simp at hl
      | cons b l =>
        have := ih xs l (by simpa using hxs) (by simpa using hl)
        simpa using this

theorem getValue_shiftRecord (frame : Int) (gx gy : RFLOAT) :
    MDObject.getInt (shiftRecord frame gx gy) EMDL_MICROGRAPH_FRAME_NUMBER = some frame ∧
    MDObject.getReal (shiftRecord frame gx gy) EMDL_MICROGRAPH_SHIFT_X = some gx ∧
    MDObject.getReal (shiftRecord frame gx gy) EMDL_MICROGRAPH_SHIFT_Y = some gy := by
  simp [shiftRecord, MDObject.getInt, MDObject.getReal, MDObject.getValue]

theorem Micrograph.forEach_readGlobalShift (xs ys : List RFLOAT) (k : Nat) (s : Micrograph)
    (hxs : k ≤ xs.length) (hys : k ≤ ys.length)
    (hsx : k ≤ s.globalShiftX.length) (hsy : k ≤ s.globalShiftY.length) :
    forEach Micrograph.readGlobalShift
        ((List.range k).map fun (i : Nat) =>
          shiftRecord ((i : Int) + 1) (xs.getD i 0) (ys.getD i 0)) s =
      .ok { s with globalShiftX := xs.take k ++ s.globalShiftX.drop k,
                   globalShiftY := ys.take k ++ s.globalShiftY.drop k } := by
  induction k with
  | zero => simp [forEach]
  | succ k ih =>
    rw [List.range_succ, List.map_append, forEach_append, ih (by omega) (by omega) (by omega)
      (by omega)]
    obtain ⟨g1, g2, g3⟩ := getValue_shiftRecord ((k : Int) + 1) (xs.getD k 0) (ys.getD k 0)
    have wx : writeAt (xs.take k ++ s.globalShiftX.drop k) ((k : Int) + 1 - 1) (xs.getD k 0) =
        some (xs.take (k + 1) ++ s.globalShiftX.drop (k + 1)) := by
      rw [add_sub_cancel_right, writeAt_of_lt _ k _ (by simp; omega),
        set_take_drop xs _ k (by omega) (by omega)]
    have wy : writeAt (ys.take k ++ s.globalShiftY.drop k) ((k : Int) + 1 - 1) (ys.getD k 0) =
        some (ys.take (k + 1) ++ s.globalShiftY.drop (k + 1)) := by
      rw [add_sub_cancel_right, writeAt_of_lt _ k _ (by simp; omega),
        set_take_drop ys _ k (by omega) (by omega)]
    simp only [List.map_cons, List.map_nil, forEach, Micrograph.readGlobalShift, g1, g2, g3,
      wx, wy]


/-! ## Reading back a written file -/

theorem Micrograph.read_of_general (tags : MotionModelTags) (model_version0 : Int)
    (prior : Micrograph) (fh : StarFile) (o : MDObject) (w h : Int) (n : Nat) (mv : String)
    (v : Int)
    (ho : (MetaDataTable.readStar fh "general").current = o)
    (hw : o.getValue EMDL_IMAGE_SIZEX = some (.int w))
    (hh : o.getValue EMDL_IMAGE_SIZEY = some (.int h))
    (hn : o.getValue EMDL_IMAGE_SIZEZ = some (.int n))
    (hmv : o.getValue EMDL_MICROGRAPH_MOVIE_NAME = some (.str mv))
    (hv : o.getValue EMDL_MICROGRAPH_MOTION_MODEL_VERSION = some (.int v)) :
    Micrograph.read tags model_version0 prior (some fh) =
      forEach Micrograph.readGlobalShift (MetaDataTable.readStar fh "global_shift").objects
        { width := w, height := h, n_frames := n,
          binning := (o.getReal EMDL_MICROGRAPH_BINNING).getD 1,
          angpix := (o.getReal EMDL_MICROGRAPH_ORIGINAL_PIXEL_SIZE).getD (-1),
          pre_exposure := (o.getReal EMDL_MICROGRAPH_PRE_EXPOSURE).getD (-1),
          dose_per_frame := (o.getReal EMDL_MICROGRAPH_DOSE_RATE).getD (-1),
          voltage := (o.getReal EMDL_CTF_VOLTAGE).getD (-1),
          fnMovie := mv,
          fnGain := (o.getString EMDL_MICROGRAPH_GAIN_NAME).getD "",
          globalShiftX := List.replicate n Micrograph.NOT_OBSERVED,
          globalShiftY := List.replicate n Micrograph.NOT_OBSERVED,
          model := none } := by
  simp only [Micrograph.read, ho, MDObject.getInt, MDObject.getString, hw, hh, hn, hmv, hv,
    Micrograph.clear, vectorResize_nil, Micrograph.readModel]

theorem Micrograph.read_write (tags : MotionModelTags) (model_version0 : Int)
    (prior M : Micrograph)
    (hx : (M.globalShiftX.length : Int) = M.n_frames)
    (hy : (M.globalShiftY.length : Int) = M.n_frames)
    (hmodel : ∀ m, M.model = some m → m.coeffX.length = 18 ∧ m.coeffY.length = 18) :
    ∃ file, Micrograph.write tags M true = .ok file ∧
      MetaDataTable.readStar file "general" = Micrograph.writeGeneral tags M ∧
      Micrograph.read tags model_version0 prior (some file) = .ok { M with model := none } := by
  refine ⟨_, Micrograph.write_blocks tags M hx hy hmodel, ?_, ?_⟩
  · obtain ⟨o, ho, -⟩ := Micrograph.writeGeneral_fields tags M
    simp [MetaDataTable.readStar_cons, ho]
  · obtain ⟨o, ho, f1, f2, f3, f4, f5, f6, f7, f8, f9, f10, f11⟩ :=
      Micrograph.writeGeneral_fields tags M
    have hn : M.n_frames = ((M.n_frames.toNat : Nat) : Int) := by omega
    rw [hn] at f3
    have hg : (MetaDataTable.readStar
        ([Micrograph.writeGeneral tags M,
            shiftBlock M.globalShiftX M.globalShiftY M.n_frames.toNat] ++
          (match M.model with
            | some m => [coeffBlock m "local_motion_model"]
            | none => [])) "general").current = o := by
      simp [MetaDataTable.readStar_cons, ho, MetaDataTable.current]
    have hs : (MetaDataTable.readStar
        ([Micrograph.writeGeneral tags M,
            shiftBlock M.globalShiftX M.globalShiftY M.n_frames.toNat] ++
          (match M.model with
            | some m => [coeffBlock m "local_motion_model"]
            | none => [])) "global_shift") =
          shiftBlock M.globalShiftX M.globalShiftY M.n_frames.toNat := by
      simp [MetaDataTable.readStar_cons, ho, shiftBlock]
    rw [Micrograph.read_of_general tags model_version0 prior _ o _ _ _ _ _ hg f1 f2 f3 f4 f11,
      hs]
    simp only [shiftBlock]
    rw [Micrograph.forEach_readGlobalShift M.globalShiftX M.globalShiftY M.n_frames.toNat _
      (by omega) (by omega) (by simp) (by simp)]
    have tx : List.take M.n_frames.toNat M.globalShiftX = M.globalShiftX :=
      List.take_of_length_le (by omega)
    have ty : List.take M.n_frames.toNat M.globalShiftY = M.globalShiftY :=
      List.take_of_length_le (by omega)
    have e5 : (MDObject.getString o EMDL_MICROGRAPH_GAIN_NAME).getD "" = M.fnGain := by
      by_cases c : M.fnGain = "" <;> simp [MDObject.getString, f5, c]
    have e6 : (MDObject.getReal o EMDL_MICROGRAPH_BINNING).getD 1 = M.binning := by
      simp [MDObject.getReal, f6]
    have e7 : (MDObject.getReal o EMDL_MICROGRAPH_ORIGINAL_PIXEL_SIZE).getD (-1) = M.angpix := by
      by_cases c : M.angpix = -1 <;> simp [MDObject.getReal, f7, c]
    have e8 : (MDObject.getReal o EMDL_MICROGRAPH_DOSE_RATE).getD (-1) = M.dose_per_frame := by
      by_cases c : M.dose_per_frame = -1 <;> simp [MDObject.getReal, f8, c]
    have e9 : (MDObject.getReal o EMDL_MICROGRAPH_PRE_EXPOSURE).getD (-1) = M.pre_exposure := by
      by_cases c : M.pre_exposure = -1 <;> simp [MDObject.getReal, f9, c]
    have e10 : (MDObject.getReal o EMDL_CTF_VOLTAGE).getD (-1) = M.voltage := by
      by_cases c : M.voltage = -1 <;> simp [MDObject.getReal, f10, c]
    simp only [tx, ty, e5, e6, e7, e8, e9, e10, List.drop_replicate, Nat.sub_self,
      List.replicate_zero, List.append_nil, ← hn]


/-! ## Reading a coefficient block -/

theorem set_append_cons (A : List RFLOAT) (y x : RFLOAT) (rest : List RFLOAT) :
    (A ++ y :: rest).set A.length x = A ++ x :: rest := by
  induction A with
  | nil => simp
  | cons a A ih => simp [ih]

theorem getValue_coeffRecord (idx : Int) (c : RFLOAT) :
    MDObject.getInt (coeffRecord idx c) EMDL_MICROGRAPH_MOTION_COEFFS_IDX = some idx ∧
    MDObject.getReal (coeffRecord idx c) EMDL_MICROGRAPH_MOTION_COEFF = some c := by
  simp [coeffRecord, MDObject.getInt, MDObject.getReal, MDObject.getValue]

/-- Records with indices `0 .. k-1` (`k <= 18`) fill the first `k` slots of `coeffX`. -/
theorem ThirdOrderPolynomialModel.forEach_readObject_X (val : Nat → RFLOAT) (k : Nat)
    (m0 : ThirdOrderPolynomialModel) (j : Int) (hk : k ≤ 18) (hl : k ≤ m0.coeffX.length) :
    forEach ThirdOrderPolynomialModel.readObject
        ((List.range k).map fun (i : Nat) => coeffRecord (i : Int) (val i)) (m0, j) =
      .ok ({ m0 with coeffX := (List.range k).map val ++ m0.coeffX.drop k }, j + k) := by
  induction k with
  | zero => simp [forEach]
  | succ k ih =>
    rw [List.range_succ, List.map_append, forEach_append, ih (by omega) (by omega)]
    obtain ⟨g1, g2⟩ := getValue_coeffRecord (k : Int) (val k)
    have c1 : (k : Int) ≥ 0 ∧ (k : Int) < ThirdOrderPolynomialModel.NUM_COEFFS_PER_DIM := by
      simp only [ThirdOrderPolynomialModel.NUM_COEFFS_PER_DIM]; omega
    have hd : m0.coeffX.drop k = m0.coeffX[k] :: m0.coeffX.drop (k + 1) :=
      List.drop_eq_getElem_cons (by omega)
    have wx : writeAt ((List.range k).map val ++ m0.coeffX.drop k) (k : Int) (val k) =
        some ((List.range (k + 1)).map val ++ m0.coeffX.drop (k + 1)) := by
      rw [writeAt_of_lt _ k _ (by simp; omega), hd]
      have := set_append_cons ((List.range k).map val) m0.coeffX[k] (val k)
        (m0.coeffX.drop (k + 1))
      simp only [List.length_map, List.length_range] at this
      rw [this, List.range_succ, List.map_append]
      simp
    simp only [List.map_cons, List.map_nil, forEach, ThirdOrderPolynomialModel.readObject, g1,
      g2, c1, and_self, if_true, wx, Nat.cast_add, Nat.cast_one, add_assoc]
    rw [List.range_succ]

/-- A record whose index lies in `[18, 36)` makes `read` write `coeffY(idx)` outside an
array of 18 entries. -/
theorem ThirdOrderPolynomialModel.readObject_Y_undefined
    (st : ThirdOrderPolynomialModel × Int) (idx : Int) (c : RFLOAT)
    (h18 : 18 ≤ idx) (h36 : idx < 36) (hy : st.1.coeffY.length ≤ 18) :
    ThirdOrderPolynomialModel.readObject st (coeffRecord idx c) = .undefined .outOfBounds := by
  obtain ⟨g1, g2⟩ := getValue_coeffRecord idx c
  have c1 : ¬ (idx ≥ 0 ∧ idx < ThirdOrderPolynomialModel.NUM_COEFFS_PER_DIM) := by
    simp only [ThirdOrderPolynomialModel.NUM_COEFFS_PER_DIM]; omega
  have c2 : idx ≥ ThirdOrderPolynomialModel.NUM_COEFFS_PER_DIM ∧
      idx < ThirdOrderPolynomialModel.NUM_COEFFS_PER_DIM * 2 := by
    simp only [ThirdOrderPolynomialModel.NUM_COEFFS_PER_DIM]; omega
  simp only [ThirdOrderPolynomialModel.readObject, g1, g2, c1, c2, and_self, if_true, if_false,
    writeAt_of_ge st.1.coeffY idx c (by omega)]

/-- For every model with 18 coefficients per axis, `read` applied to the block that
`write` produced runs into the out-of-range write at the record with index 18. -/
theorem ThirdOrderPolynomialModel.read_write_undefined (m : ThirdOrderPolynomialModel)
    (block_name : String) (hx : m.coeffX.length = 18) (hy : m.coeffY.length = 18) :
    ∃ file, m.write [] block_name = .ok file ∧
      ThirdOrderPolynomialModel.read file block_name = .undefined .outOfBounds := by
  refine ⟨_, ThirdOrderPolynomialModel.write_coeffBlock m [] block_name hx hy, ?_⟩
  have e : ThirdOrderPolynomialModel.NUM_COEFFS_PER_DIM.toNat = 18 := rfl
  have hr : MetaDataTable.readStar ([] ++ [coeffBlock m block_name]) block_name =
      coeffBlock m block_name := by
    simp [MetaDataTable.readStar_cons, coeffBlock]
  have hX := ThirdOrderPolynomialModel.forEach_readObject_X (fun i => m.coeffX.getD i 0) 18
    { coeffX := List.replicate 18 0, coeffY := List.replicate 18 0 } 0 (by omega) (by simp)
  beta_reduce at hX
  have hYs : ∀ st : ThirdOrderPolynomialModel × Int, st.1.coeffY.length ≤ 18 →
      forEach ThirdOrderPolynomialModel.readObject
        ((List.range 18).map fun (i : Nat) => coeffRecord (18 + (i : Int)) (m.coeffY.getD i 0))
        st = .undefined .outOfBounds := by
    intro st hst
    rw [List.range_succ_eq_map]
    simp only [List.map_cons, forEach, Nat.cast_zero, add_zero]
    rw [ThirdOrderPolynomialModel.readObject_Y_undefined st 18 _ (by omega) (by omega) hst]
  simp only [ThirdOrderPolynomialModel.read, hr, e]
  simp only [coeffBlock, zero_add, forEach_append, hX]
  rw [hYs _ (by simp)]

/-- When `read` returns normally, the block holds exactly 36 records, each carries both
fields, and every stored index lies in `[0, 18)`. -/
theorem ThirdOrderPolynomialModel.forEach_readObject_ok (objs : List MDObject)
    (st st' : ThirdOrderPolynomialModel × Int) (hy : st.1.coeffY.length ≤ 18)
    (h : forEach ThirdOrderPolynomialModel.readObject objs st = .ok st') :
    st'.2 = st.2 + objs.length ∧
      ∀ o ∈ objs, ∃ idx val, MDObject.getInt o EMDL_MICROGRAPH_MOTION_COEFFS_IDX = some idx ∧
        MDObject.getReal o EMDL_MICROGRAPH_MOTION_COEFF = some val ∧ 0 ≤ idx ∧ idx < 18 := by
  induction objs generalizing st with
  | nil =>
    simp only [forEach, Outcome.ok.injEq] at h
    subst h
    simp
  | cons o rest ih =>
    simp only [forEach] at h
    cases hb : ThirdOrderPolynomialModel.readObject st o with
    | error msg s1 => rw [hb] at h; cases h
    | undefined u => rw [hb] at h; cases h
    | ok s1 =>
      rw [hb] at h
      simp only at h
      unfold ThirdOrderPolynomialModel.readObject at hb
      simp only [ThirdOrderPolynomialModel.NUM_COEFFS_PER_DIM] at hb
      split at hb
      · cases hb
      · rename_i idx hidx
        split at hb
        · cases hb
        · rename_i val hval
          split at hb
          · rename_i hc
            split at hb
            · cases hb
            · rename_i cx hcx
              cases hb
              obtain ⟨e1, e2⟩ := ih ({ st.1 with coeffX := cx }, st.2 + 1) hy h
              simp only at e1
              refine ⟨by simp only [List.length_cons, Nat.cast_add, Nat.cast_one]; omega, ?_⟩
              intro o' ho'
              rcases List.mem_cons.mp ho' with rfl | hmem
              · exact ⟨idx, val, hidx, hval, hc.1, hc.2⟩
              · exact e2 o' hmem
          · split at hb
            · rename_i hc2
              rw [writeAt_of_ge st.1.coeffY idx val (by omega)] at hb
              cases hb
            · cases hb

theorem ThirdOrderPolynomialModel.read_ok_inv (fh : StarFile) (block_name : String)
    (m : ThirdOrderPolynomialModel)
    (h : ThirdOrderPolynomialModel.read fh block_name = .ok m) :
    (MetaDataTable.readStar fh block_name).objects.length = 36 ∧
      ∀ o ∈ (MetaDataTable.readStar fh block_name).objects,
        ∃ idx val, MDObject.getInt o EMDL_MICROGRAPH_MOTION_COEFFS_IDX = some idx ∧
          MDObject.getReal o EMDL_MICROGRAPH_MOTION_COEFF = some val ∧ 0 ≤ idx ∧ idx < 18 := by
  unfold ThirdOrderPolynomialModel.read at h
  simp only at h
  split at h
  · cases h
  · cases h
  · rename_i st hst
    split at h
    · cases h
    · rename_i hnum
      obtain ⟨e1, e2⟩ := ThirdOrderPolynomialModel.forEach_readObject_ok _ _ st (by simp
        [ThirdOrderPolynomialModel.NUM_COEFFS_PER_DIM]) hst
      refine ⟨?_, e2⟩
      simp only [ThirdOrderPolynomialModel.NUM_COEFFS_PER_DIM, ne_eq, not_not] at hnum
      omega


/-! ## Round trips through a written file -/

/-- C1: for a micrograph whose shift arrays have length `n_frames` (and whose model, when
present, holds 18 coefficients per axis, so that `write` is defined), `write` produces a
file, `read` of that file returns normally, and the result has the width, height,
`n_frames`, movie name and the global shifts of the written micrograph, slot by slot. -/
theorem C1_read_write_roundtrip (tags : MotionModelTags) (model_version0 : Int)
    (prior M : Micrograph)
    (hx : (M.globalShiftX.length : Int) = M.n_frames)
    (hy : (M.globalShiftY.length : Int) = M.n_frames)
    (hmodel : ∀ m, M.model = some m → m.coeffX.length = 18 ∧ m.coeffY.length = 18) :
    ∃ file M', Micrograph.write tags M true = .ok file ∧
      Micrograph.read tags model_version0 prior (some file) = .ok M' ∧
      M'.width = M.width ∧ M'.height = M.height ∧ M'.n_frames = M.n_frames ∧
      M'.fnMovie = M.fnMovie ∧
      M'.globalShiftX = M.globalShiftX ∧ M'.globalShiftY = M.globalShiftY ∧
      (M'.globalShiftX.length : Int) = M.n_frames ∧
      ∀ i : Nat, (i : Int) < M.n_frames →
        M'.globalShiftX[i]? = M.globalShiftX[i]? ∧ M'.globalShiftY[i]? = M.globalShiftY[i]? := by
  obtain ⟨file, hw, -, hr⟩ := Micrograph.read_write tags model_version0 prior M hx hy hmodel
  exact ⟨file, _, hw, hr, rfl, rfl, rfl, rfl, rfl, rfl, hx, fun _ _ => ⟨rfl, rfl⟩⟩

/-- Witness of C1: the two-frame example micrograph that owns a model. -/
theorem C1_read_write_roundtrip_witness :
    ∃ file M', Micrograph.write exampleTags exampleMicrographWithModel true = .ok file ∧
      Micrograph.read exampleTags 0 exampleMicrograph (some file) = .ok M' ∧
      M'.width = exampleMicrographWithModel.width ∧
      M'.height = exampleMicrographWithModel.height ∧
      M'.n_frames = exampleMicrographWithModel.n_frames ∧
      M'.fnMovie = exampleMicrographWithModel.fnMovie ∧
      M'.globalShiftX = exampleMicrographWithModel.globalShiftX ∧
      M'.globalShiftY = exampleMicrographWithModel.globalShiftY ∧
      (M'.globalShiftX.length : Int) = exampleMicrographWithModel.n_frames ∧
      ∀ i : Nat, (i : Int) < exampleMicrographWithModel.n_frames →
        M'.globalShiftX[i]? = exampleMicrographWithModel.globalShiftX[i]? ∧
        M'.globalShiftY[i]? = exampleMicrographWithModel.globalShiftY[i]? :=
  C1_read_write_roundtrip exampleTags 0 exampleMicrograph exampleMicrographWithModel
    (by decide) (by decide)
    (by
      intro m hm
      have e : exampleModel = m := Option.some.inj hm
      subst e
      exact ⟨rfl, rfl⟩)

/-- C2, evaluated: the example micrograph owns a third-order polynomial model; `write`
produces a file whose general block carries the third-order version tag, and `read` of
that file returns a micrograph without a model. -/
theorem C2_read_write_drops_model :
    exampleMicrographWithModel.model = some exampleModel ∧
    ∃ file M', Micrograph.write exampleTags exampleMicrographWithModel true = .ok file ∧
      MDObject.getInt (MetaDataTable.readStar file "general").current
          EMDL_MICROGRAPH_MOTION_MODEL_VERSION
        = some exampleTags.MOTION_MODEL_THIRD_ORDER_POLYNOMIAL ∧
      Micrograph.read exampleTags 0 exampleMicrograph (some file) = .ok M' ∧
      M'.model = none := by
  refine ⟨rfl, ?_⟩
  obtain ⟨file, hw, hg, hr⟩ := Micrograph.read_write exampleTags 0 exampleMicrograph
    exampleMicrographWithModel (by decide) (by decide)
    (by
      intro m hm
      have e : exampleModel = m := Option.some.inj hm
      subst e
      exact ⟨rfl, rfl⟩)
  refine ⟨file, _, hw, ?_, hr, rfl⟩
  obtain ⟨o, ho, -, -, -, -, -, -, -, -, -, -, f11⟩ :=
    Micrograph.writeGeneral_fields exampleTags exampleMicrographWithModel
  rw [hg, ho]
  simp only [MetaDataTable.current, List.getLast?_singleton, MDObject.getInt, f11]
  rfl

/-- C3, evaluated: for the example model (18 coefficients per axis), `write` produces
the block and `read` of that block neither returns nor reports an error: the record with
stored index 18 is written to `coeffY(18)`, outside the 18 entries of `coeffY`. -/
theorem C3_model_read_write_out_of_bounds :
    exampleModel.coeffX.length = 18 ∧ exampleModel.coeffY.length = 18 ∧
    ∃ file, exampleModel.write [] "local_motion_model" = .ok file ∧
      ThirdOrderPolynomialModel.read file "local_motion_model" = .undefined .outOfBounds :=
  ⟨rfl, rfl, ThirdOrderPolynomialModel.read_write_undefined exampleModel "local_motion_model"
    rfl rfl⟩

/-- C9: for every micrograph, the general block that `write` hands to the stream carries
the field of `angpix`, `pre_exposure`, `dose_per_frame`, `voltage` exactly when the member
differs from `-1`, and the gain-name field exactly when `fnGain` is not empty. When `write`
is defined (shift arrays of length `n_frames`, a model with 18 coefficients per axis when
present), the written file holds that block, and `read` of the file returns a micrograph
in which each member written as unset is `-1` again and an omitted gain name is the empty
string. -/
theorem C9_unset_fields_omitted (tags : MotionModelTags) (model_version0 : Int)
    (prior M : Micrograph) :
    (((MDObject.getValue (Micrograph.writeGeneral tags M).current
          EMDL_MICROGRAPH_ORIGINAL_PIXEL_SIZE).isSome ↔ M.angpix ≠ -1) ∧
      ((MDObject.getValue (Micrograph.writeGeneral tags M).current
          EMDL_MICROGRAPH_PRE_EXPOSURE).isSome ↔ M.pre_exposure ≠ -1) ∧
      ((MDObject.getValue (Micrograph.writeGeneral tags M).current
          EMDL_MICROGRAPH_DOSE_RATE).isSome ↔ M.dose_per_frame ≠ -1) ∧
      ((MDObject.getValue (Micrograph.writeGeneral tags M).current
          EMDL_CTF_VOLTAGE).isSome ↔ M.voltage ≠ -1) ∧
      ((MDObject.getValue (Micrograph.writeGeneral tags M).current
          EMDL_MICROGRAPH_GAIN_NAME).isSome ↔ M.fnGain ≠ "")) ∧
    ((M.globalShiftX.length : Int) = M.n_frames → (M.globalShiftY.length : Int) = M.n_frames →
      (∀ m, M.model = some m → m.coeffX.length = 18 ∧ m.coeffY.length = 18) →
      ∃ file M', Micrograph.write tags M true = .ok file ∧
        MetaDataTable.readStar file "general" = Micrograph.writeGeneral tags M ∧
        Micrograph.read tags model_version0 prior (some file) = .ok M' ∧
        (M.angpix = -1 → M'.angpix = -1) ∧
        (M.pre_exposure = -1 → M'.pre_exposure = -1) ∧
        (M.dose_per_frame = -1 → M'.dose_per_frame = -1) ∧
        (M.voltage = -1 → M'.voltage = -1) ∧
        (M.fnGain = "" → M'.fnGain = "")) := by
  constructor
  · obtain ⟨o, ho, -, -, -, -, f5, -, f7, f8, f9, f10, -⟩ :=
      Micrograph.writeGeneral_fields tags M
    have hc : (Micrograph.writeGeneral tags M).current = o := by
      rw [ho]; simp [MetaDataTable.current]
    rw [hc, f5, f7, f8, f9, f10]
    refine ⟨?_, ?_, ?_, ?_, ?_⟩
    · by_cases c : M.angpix = -1 <;> simp [c]
    · by_cases c : M.pre_exposure = -1 <;> simp [c]
    · by_cases c : M.dose_per_frame = -1 <;> simp [c]
    · by_cases c : M.voltage = -1 <;> simp [c]
    · by_cases c : M.fnGain = "" <;> simp [c]
  · intro hx hy hmodel
    obtain ⟨file, hw, hg, hr⟩ := Micrograph.read_write tags model_version0 prior M hx hy hmodel
    exact ⟨file, _, hw, hg, hr, id, id, id, id, id⟩

/-- Witness of C9: the example micrograph, in which every optional member is unset. -/
theorem C9_unset_fields_omitted_witness :
    ∃ file M', Micrograph.write exampleTags exampleMicrograph true = .ok file ∧
      MetaDataTable.readStar file "general" =
        Micrograph.writeGeneral exampleTags exampleMicrograph ∧
      Micrograph.read exampleTags 0 exampleMicrographWithModel (some file) = .ok M' ∧
      (exampleMicrograph.angpix = -1 → M'.angpix = -1) ∧
      (exampleMicrograph.pre_exposure = -1 → M'.pre_exposure = -1) ∧
      (exampleMicrograph.dose_per_frame = -1 → M'.dose_per_frame = -1) ∧
      (exampleMicrograph.voltage = -1 → M'.voltage = -1) ∧
      (exampleMicrograph.fnGain = "" → M'.fnGain = "") :=
  (C9_unset_fields_omitted exampleTags 0 exampleMicrographWithModel exampleMicrograph).2
    (by decide) (by decide) (by intro m hm; cases hm)

/-- C10, evaluated: on a block of 35 well-formed records with indices 0 to 34 (one record
short), `read` does not report the missing record: the record with index 18 is written
to `coeffY(18)`, outside the 18 entries of `coeffY`, before the count is checked. -/
theorem C10_short_block_out_of_bounds :
    exampleShortBlock.objects.length = 35 ∧
    ThirdOrderPolynomialModel.read [exampleShortBlock] "local_motion_model"
      = .undefined .outOfBounds := by
  refine ⟨by simp [exampleShortBlock], ?_⟩
  have hr : MetaDataTable.readStar [exampleShortBlock] "local_motion_model" =
      exampleShortBlock := by
    simp [MetaDataTable.readStar_cons, exampleShortBlock]
  have e : ThirdOrderPolynomialModel.NUM_COEFFS_PER_DIM.toNat = 18 := rfl
  have hsplit : List.range 35 = List.range 18 ++ (List.range 17).map (fun i => 18 + i) :=
    List.range_add 18 17
  have hX := ThirdOrderPolynomialModel.forEach_readObject_X (fun _ => 0) 18
    { coeffX := List.replicate 18 0, coeffY := List.replicate 18 0 } 0 (by omega) (by simp)
  beta_reduce at hX
  simp only [ThirdOrderPolynomialModel.read, hr, e]
  simp only [exampleShortBlock, hsplit, List.map_append, forEach_append, hX]
  rw [List.range_succ_eq_map]
  simp only [List.map_cons, forEach]
  rw [ThirdOrderPolynomialModel.readObject_Y_undefined _ _ _ (by simp) (by simp) (by simp)]


/-! ## The coefficient block that `write` produces -/

/-- C11: for a model with 18 coefficients per axis, `write` appends exactly one block to
the stream; the block is named `block_name`, holds exactly 36 records, and for every
`i < 36` record `i` carries the index field `i` and the value `coeffX[i]` when `i < 18`
and `coeffY[i - 18]` when `i >= 18`. -/
theorem C11_write_block (m : ThirdOrderPolynomialModel) (fh : StarFile) (block_name : String)
    (hx : m.coeffX.length = 18) (hy : m.coeffY.length = 18) :
    ∃ B : MetaDataTable, m.write fh block_name = .ok (fh ++ [B]) ∧ B.name = block_name ∧
      B.objects.length = 36 ∧
      ∀ i : Nat, i < 36 → ∃ o c, B.objects[i]? = some o ∧
        MDObject.getInt o EMDL_MICROGRAPH_MOTION_COEFFS_IDX = some (i : Int) ∧
        MDObject.getReal o EMDL_MICROGRAPH_MOTION_COEFF = some c ∧
        (if i < 18 then m.coeffX[i]? else m.coeffY[i - 18]?) = some c := by
  refine ⟨coeffBlock m block_name, ThirdOrderPolynomialModel.write_coeffBlock m fh block_name
    hx hy, rfl, by simp [coeffBlock], ?_⟩
  intro i hi
  by_cases h18 : i < 18
  · refine ⟨coeffRecord (i : Int) (m.coeffX.getD i 0), m.coeffX.getD i 0, ?_,
      (getValue_coeffRecord _ _).1, (getValue_coeffRecord _ _).2, ?_⟩
    · simp [coeffBlock, List.getElem?_append, h18, List.getElem?_range]
    · have hlt : i < m.coeffX.length := by omega
      simp [h18, List.getD_eq_getElem?_getD, List.getElem?_eq_getElem hlt]
  · refine ⟨coeffRecord (18 + ((i - 18 : Nat) : Int)) (m.coeffY.getD (i - 18) 0),
      m.coeffY.getD (i - 18) 0, ?_, ?_, (getValue_coeffRecord _ _).2, ?_⟩
    · have h2 : i - 18 < 18 := by omega
      simp [coeffBlock, List.getElem?_append, h18, List.getElem?_range, h2]
    · rw [(getValue_coeffRecord _ _).1]
      congr 1
      omega
    · have hlt : i - 18 < m.coeffY.length := by omega
      simp [h18, List.getD_eq_getElem?_getD, List.getElem?_eq_getElem hlt]

/-- Witness of C11: the example model written to an empty stream. -/
theorem C11_write_block_witness :
    ∃ B : MetaDataTable, exampleModel.write [] "local_motion_model" = .ok ([] ++ [B]) ∧
      B.name = "local_motion_model" ∧ B.objects.length = 36 ∧
      ∀ i : Nat, i < 36 → ∃ o c, B.objects[i]? = some o ∧
        MDObject.getInt o EMDL_MICROGRAPH_MOTION_COEFFS_IDX = some (i : Int) ∧
        MDObject.getReal o EMDL_MICROGRAPH_MOTION_COEFF = some c ∧
        (if i < 18 then exampleModel.coeffX[i]? else exampleModel.coeffY[i - 18]?) = some c :=
  C11_write_block exampleModel [] "local_motion_model" rfl rfl

/-! ## The polynomial at `z = 0` -/

/-- The values that lines 32-43 assign at `z = 0`: with 18 coefficients per axis both
outputs are `0` for all `x`, `y`, since every term carries a positive power of `z`. -/
theorem ThirdOrderPolynomialModel.shiftOutputs_z_zero (coeffX coeffY : List RFLOAT)
    (hx : coeffX.length = 18) (hy : coeffY.length = 18) (x y : RFLOAT) :
    ThirdOrderPolynomialModel.shiftOutputs { coeffX := coeffX, coeffY := coeffY } 0 x y
      = .ok (0, 0) := by
  rw [ThirdOrderPolynomialModel.shiftOutputs_eq ⟨coeffX, coeffY⟩ hx hy]
  simp [specShift, Finset.sum_range_succ]

/-- C19, evaluated: on the example model at `(z, x, y) = (0, 3, 4)` the statements of lines
32-43 assign `(0, 0)`, the values the claim names, but the call does not return them:
`getShiftAt` is declared `int` and its body ends at line 44 without a `return`
statement. -/
theorem C19_getShiftAt_z_zero_missing_return :
    exampleModel.shiftOutputs 0 3 4 = .ok (0, 0) ∧
    exampleModel.getShiftAt 0 3 4 = .undefined .missingReturn :=
  ⟨ThirdOrderPolynomialModel.shiftOutputs_z_zero (1 :: List.replicate 17 0)
      (List.replicate 18 0) (by simp) (by simp) 3 4,
   ThirdOrderPolynomialModel.getShiftAt_missing_return exampleModel rfl rfl 0 3 4⟩

/-! ## What `setGlobalShift` leaves alone -/

/-- C18: when `setGlobalShift(f, sx, sy)` with `1 <= f <= n_frames` returns normally, the
new state differs from the old one only in slot `f - 1` of the two shift arrays: every
other slot (the shifts of every other frame) and `n_frames`, `width`, `height`, the file
names, the acquisition scalars and the model are unchanged. -/
theorem C18_setGlobalShift_frame (M M' : Micrograph) (f : Int) (sx sy : RFLOAT)
    (h1 : 1 ≤ f) (h2 : f ≤ M.n_frames) (h : M.setGlobalShift f sx sy = .ok M') :
    M' = { M with globalShiftX := M.globalShiftX.set (f - 1).toNat sx,
                  globalShiftY := M.globalShiftY.set (f - 1).toNat sy } ∧
    M'.n_frames = M.n_frames ∧ M'.width = M.width ∧ M'.height = M.height ∧
    M'.fnMovie = M.fnMovie ∧ M'.fnGain = M.fnGain ∧ M'.binning = M.binning ∧
    M'.angpix = M.angpix ∧ M'.pre_exposure = M.pre_exposure ∧
    M'.dose_per_frame = M.dose_per_frame ∧ M'.voltage = M.voltage ∧ M'.model = M.model ∧
    (∀ i : Nat, i ≠ (f - 1).toNat →
      M'.globalShiftX[i]? = M.globalShiftX[i]? ∧ M'.globalShiftY[i]? = M.globalShiftY[i]?) ∧
    (∀ g : Int, 1 ≤ g → g ≠ f →
      M'.globalShiftX[(g - 1).toNat]? = M.globalShiftX[(g - 1).toNat]? ∧
      M'.globalShiftY[(g - 1).toNat]? = M.globalShiftY[(g - 1).toNat]?) := by
  have hnot : ¬ (f ≤ 0 ∨ f > M.n_frames) := by omega
  have e : M' = { M with globalShiftX := M.globalShiftX.set (f - 1).toNat sx,
                         globalShiftY := M.globalShiftY.set (f - 1).toNat sy } := by
    unfold Micrograph.setGlobalShift at h
    rw [if_neg hnot] at h
    simp only [writeAt] at h
    split at h
    · cases h
    · rename_i gx hgx
      split at hgx
      · cases hgx
        split at h
        · cases h
        · rename_i gy hgy
          split at hgy
          · cases hgy
            cases h
            rfl
          · cases hgy
      · cases hgx
  have hslot : ∀ i : Nat, i ≠ (f - 1).toNat →
      M'.globalShiftX[i]? = M.globalShiftX[i]? ∧ M'.globalShiftY[i]? = M.globalShiftY[i]? := by
    intro i hi
    subst e
    simp only [List.getElem?_set, if_neg (Ne.symm hi), and_self]
  subst e
  refine ⟨rfl, rfl, rfl, rfl, rfl, rfl, rfl, rfl, rfl, rfl, rfl, rfl, hslot, ?_⟩
  intro g hg hne
  exact hslot (g - 1).toNat (by omega)

/-- Witness of C18: the last frame of the two-frame example micrograph. -/
theorem C18_setGlobalShift_frame_witness :
    ∃ M', exampleMicrograph.setGlobalShift 2 3 4 = .ok M' ∧
      M'.n_frames = exampleMicrograph.n_frames ∧ M'.model = exampleMicrograph.model ∧
      M'.globalShiftX[0]? = exampleMicrograph.globalShiftX[0]? ∧
      M'.globalShiftY[0]? = exampleMicrograph.globalShiftY[0]? := by
  have h : exampleMicrograph.setGlobalShift 2 3 4 =
      .ok { exampleMicrograph with globalShiftX := [5, 3], globalShiftY := [7, 4] } := by
    simp [Micrograph.setGlobalShift, exampleMicrograph, writeAt]
  have w := C18_setGlobalShift_frame exampleMicrograph _ 2 3 4 (by decide) (by decide) h
  exact ⟨_, h, w.2.1, w.2.2.2.2.2.2.2.2.2.2.2.1, w.2.2.2.2.2.2.2.2.2.2.2.2.1 0 (by decide)⟩


/-! ## Shift query outside the frame range -/

theorem truncIndex_intCast (k : Int) : truncIndex (k : RFLOAT) = k := by
  unfold truncIndex
  split <;> simp

theorem readAt_of_neg (v : List RFLOAT) (i : Int) (h : i < 0) : readAt v i = none := by
  have : ¬ (0 ≤ i ∧ i < v.length) := by omega
  simp [readAt, this]

theorem readAt_of_ge (v : List RFLOAT) (i : Int) (h : (v.length : Int) ≤ i) :
    readAt v i = none := by
  have : ¬ (0 ≤ i ∧ i < v.length) := by omega
  simp [readAt, this]

/-- `Micrograph::getShiftAt` has no range check: without a model, for an integer frame
outside `[1, n_frames]` (shift arrays of length `n_frames`) it reads the shift vector
outside its range at line 266. -/
theorem Micrograph.getShiftAt_out_of_range (M : Micrograph) (f : Int) (x y : RFLOAT)
    (hm : M.model = none)
    (hx : (M.globalShiftX.length : Int) = M.n_frames)
    (hf : f < 1 ∨ f > M.n_frames) :
    M.getShiftAt f x y = .undefined .outOfBounds := by
  have e : ((f : RFLOAT) - 1) = ((f - 1 : Int) : RFLOAT) := by push_cast; ring
  have hr : readAt M.globalShiftX (f - 1) = none := by
    rcases hf with h | h
    · exact readAt_of_neg _ _ (by omega)
    · exact readAt_of_ge _ _ (by omega)
  simp only [Micrograph.getShiftAt, hm, e, truncIndex_intCast, hr]

/-- C14, evaluated: on the two-frame example micrograph (no model, first frame holding the
shift `(5, 7)`), `getShiftAt` reports no out-of-range error for frames outside `[1, 2]`:
for frame `0` and for frame `n_frames + 1 = 3` it reads the shift vector outside its
range, and for frame `1/2` the statements of lines 261-270 assign the shift of frame 1 and
the call ends at line 271 like a call with a frame in range. -/
theorem C14_getShiftAt_no_range_check :
    exampleMicrograph.n_frames = 2 ∧
    exampleMicrograph.getShiftAt 0 0 0 = .undefined .outOfBounds ∧
    exampleMicrograph.getShiftAt 3 0 0 = .undefined .outOfBounds ∧
    exampleMicrograph.shiftOutputs (1 / 2) 0 0 = .ok (5, 7) ∧
    exampleMicrograph.getShiftAt (1 / 2) 0 0 = .undefined .missingReturn := by
  have t : truncIndex ((1 : RFLOAT) / 2 - 1) = 0 := by
    have hneg : ¬ (0 : RFLOAT) ≤ 1 / 2 - 1 := by norm_num
    rw [truncIndex, if_neg hneg]
    norm_num
  refine ⟨rfl, ?_, ?_, ?_, ?_⟩
  · exact Micrograph.getShiftAt_out_of_range exampleMicrograph 0 0 0 rfl (by decide)
      (Or.inl (by decide))
  · exact Micrograph.getShiftAt_out_of_range exampleMicrograph 3 0 0 rfl (by decide)
      (Or.inr (by decide))
  · simp only [Micrograph.shiftOutputs, exampleMicrograph, t]
    simp [readAt]
  · simp only [Micrograph.getShiftAt, exampleMicrograph, t]
    simp [readAt]


/-! ## The loop over the `global_shift` records -/

theorem Micrograph.readGlobalShift_ok (s : Micrograph) (o : MDObject) (f : Int)
    (sx sy : RFLOAT) (ho : IsShiftRecord o f sx sy) (h1 : 1 ≤ f)
    (hx : f ≤ s.globalShiftX.length) (hy : f ≤ s.globalShiftY.length) :
    Micrograph.readGlobalShift s o =
      .ok { s with globalShiftX := s.globalShiftX.set (f - 1).toNat sx,
                   globalShiftY := s.globalShiftY.set (f - 1).toNat sy } := by
  obtain ⟨g1, g2, g3⟩ := ho
  have cx : 0 ≤ f - 1 ∧ f - 1 < (s.globalShiftX.length : Int) := by omega
  have cy : 0 ≤ f - 1 ∧ f - 1 < (s.globalShiftY.length : Int) := by omega
  simp only [Micrograph.readGlobalShift, g1, g2, g3, writeAt, if_pos cx, if_pos cy]

theorem Micrograph.readGlobalShift_ok_inv (s s' : Micrograph) (o : MDObject)
    (h : Micrograph.readGlobalShift s o = .ok s') :
    ∃ f sx sy, IsShiftRecord o f sx sy ∧ 1 ≤ f ∧ f ≤ s.globalShiftX.length ∧
      f ≤ s.globalShiftY.length ∧
      s' = { s with globalShiftX := s.globalShiftX.set (f - 1).toNat sx,
                    globalShiftY := s.globalShiftY.set (f - 1).toNat sy } := by
  unfold Micrograph.readGlobalShift at h
  split at h
  · cases h
  · rename_i f hf
    split at h
    · cases h
    · rename_i sx hsx
      split at h
      · cases h
      · rename_i sy hsy
        simp only [writeAt] at h
        by_cases cx : 0 ≤ f - 1 ∧ f - 1 < (s.globalShiftX.length : Int)
        · by_cases cy : 0 ≤ f - 1 ∧ f - 1 < (s.globalShiftY.length : Int)
          · simp only [if_pos cx, if_pos cy, Outcome.ok.injEq] at h
            exact ⟨f, sx, sy, ⟨hf, hsx, hsy⟩, by omega, by omega, by omega, h.symm⟩
          · simp only [if_pos cx, if_neg cy] at h
            cases h
        · simp only [if_neg cx] at h
          cases h

theorem Micrograph.readGlobalShift_missing (s : Micrograph) (o : MDObject)
    (h : MDObject.getInt o EMDL_MICROGRAPH_FRAME_NUMBER = none ∨
      MDObject.getReal o EMDL_MICROGRAPH_SHIFT_X = none ∨
      MDObject.getReal o EMDL_MICROGRAPH_SHIFT_Y = none) :
    Micrograph.readGlobalShift s o =
      .error "MicrographModel::read: incorrect global_shift table" s := by
  unfold Micrograph.readGlobalShift
  cases h1 : MDObject.getInt o EMDL_MICROGRAPH_FRAME_NUMBER with
  | none => rfl
  | some f =>
    cases h2 : MDObject.getReal o EMDL_MICROGRAPH_SHIFT_X with
    | none => rfl
    | some sx =>
      cases h3 : MDObject.getReal o EMDL_MICROGRAPH_SHIFT_Y with
      | none => rfl
      | some sy =>
        rw [h1, h2, h3] at h
        simp at h

/-- The loop changes nothing but the two shift arrays, and keeps their lengths. -/
theorem Micrograph.forEach_readGlobalShift_inv (objs : List MDObject) (s s' : Micrograph)
    (h : forEach Micrograph.readGlobalShift objs s = .ok s') :
    s'.globalShiftX.length = s.globalShiftX.length ∧
    s'.globalShiftY.length = s.globalShiftY.length ∧
    s' = { s with globalShiftX := s'.globalShiftX, globalShiftY := s'.globalShiftY } := by
  induction objs generalizing s with
  | nil =>
    simp only [forEach, Outcome.ok.injEq] at h
    subst h
    exact ⟨rfl, rfl, rfl⟩
  | cons o rest ih =>
    simp only [forEach] at h
    cases hb : Micrograph.readGlobalShift s o with
    | error msg s1 => rw [hb] at h; cases h
    | undefined u => rw [hb] at h; cases h
    | ok s1 =>
      rw [hb] at h
      simp only at h
      obtain ⟨f, sx, sy, -, -, -, -, e⟩ := Micrograph.readGlobalShift_ok_inv s s1 o hb
      obtain ⟨l1, l2, e2⟩ := ih s1 h
      subst e
      simp only [List.length_set] at l1 l2
      refine ⟨l1, l2, ?_⟩
      rw [e2]

/-- The only message the loop can throw is the report of a malformed shift table. -/
theorem Micrograph.forEach_readGlobalShift_error (objs : List MDObject) (s s' : Micrograph)
    (msg : String) (h : forEach Micrograph.readGlobalShift objs s = .error msg s') :
    msg = "MicrographModel::read: incorrect global_shift table" := by
  induction objs generalizing s with
  | nil => simp only [forEach] at h; cases h
  | cons o rest ih =>
    simp only [forEach] at h
    cases hb : Micrograph.readGlobalShift s o with
    | ok s1 => rw [hb] at h; exact ih s1 h
    | undefined u => rw [hb] at h; cases h
    | error m s1 =>
      rw [hb] at h
      simp only [Outcome.error.injEq] at h
      unfold Micrograph.readGlobalShift at hb
      split at hb
      · cases hb; exact h.1.symm
      · split at hb
        · cases hb; exact h.1.symm
        · split at hb
          · cases hb; exact h.1.symm
          · split at hb
            · cases hb
            · split at hb <;> cases hb

/-- Records that carry all three fields and a frame number in `[1, n]` are all accepted
when both arrays have length `n`. -/
theorem Micrograph.forEach_readGlobalShift_ok (objs : List MDObject) (n : Int)
    (s : Micrograph) (hx : (s.globalShiftX.length : Int) = n)
    (hy : (s.globalShiftY.length : Int) = n)
    (hw : ∀ o ∈ objs, ∃ f sx sy, IsShiftRecord o f sx sy ∧ 1 ≤ f ∧ f ≤ n) :
    ∃ s', forEach Micrograph.readGlobalShift objs s = .ok s' := by
  induction objs generalizing s with
  | nil => exact ⟨s, rfl⟩
  | cons o rest ih =>
    obtain ⟨f, sx, sy, ho, h1, h2⟩ := hw o (List.mem_cons_self _ _)
    simp only [forEach, Micrograph.readGlobalShift_ok s o f sx sy ho h1 (by omega) (by omega)]
    exact ih _ (by simpa using hx) (by simpa using hy)
      (fun o' h' => hw o' (List.mem_cons_of_mem _ h'))

theorem Micrograph.forEach_readGlobalShift_ok_frames (objs : List MDObject) (n : Int)
    (s : Micrograph) (hx : (s.globalShiftX.length : Int) = n)
    (hy : (s.globalShiftY.length : Int) = n)
    (hw : ∀ o ∈ objs, ∃ f sx sy, IsShiftRecord o f sx sy ∧ 1 ≤ f ∧ f ≤ n) :
    ∃ s', forEach Micrograph.readGlobalShift objs s = .ok s' ∧ s'.n_frames = s.n_frames := by
  obtain ⟨s', hs⟩ := Micrograph.forEach_readGlobalShift_ok objs n s hx hy hw
  obtain ⟨-, -, e⟩ := Micrograph.forEach_readGlobalShift_inv objs s s' hs
  exact ⟨s', hs, by rw [e]⟩

/-- Records with other frame numbers leave the slot of frame `g` alone. -/
theorem Micrograph.forEach_readGlobalShift_untouched (objs : List MDObject) (g : Int)
    (s s' : Micrograph) (hg : 1 ≤ g)
    (hne : ∀ o ∈ objs, MDObject.getInt o EMDL_MICROGRAPH_FRAME_NUMBER ≠ some g)
    (h : forEach Micrograph.readGlobalShift objs s = .ok s') :
    s'.globalShiftX[(g - 1).toNat]? = s.globalShiftX[(g - 1).toNat]? ∧
    s'.globalShiftY[(g - 1).toNat]? = s.globalShiftY[(g - 1).toNat]? := by
  induction objs generalizing s with
  | nil =>
    simp only [forEach, Outcome.ok.injEq] at h
    subst h
    exact ⟨rfl, rfl⟩
  | cons o rest ih =>
    simp only [forEach] at h
    cases hb : Micrograph.readGlobalShift s o with
    | error msg s1 => rw [hb] at h; cases h
    | undefined u => rw [hb] at h; cases h
    | ok s1 =>
      rw [hb] at h
      simp only at h
      obtain ⟨f, sx, sy, ho, h1, -, -, e⟩ := Micrograph.readGlobalShift_ok_inv s s1 o hb
      have hfg : f ≠ g := by
        intro c
        exact hne o (List.mem_cons_self _ _) (by rw [ho.1, c])
      have hidx : (f - 1).toNat ≠ (g - 1).toNat := by omega
      obtain ⟨r1, r2⟩ := ih s1 (fun o' h' => hne o' (List.mem_cons_of_mem _ h')) h
      subst e
      simp only [List.getElem?_set, if_neg hidx] at r1 r2
      exact ⟨r1, r2⟩

/-- Last write wins: after the loop, the slot of frame `f` holds the shifts of the last
record that carries frame number `f`. -/
theorem Micrograph.forEach_readGlobalShift_last (pre post : List MDObject) (r : MDObject)
    (f : Int) (sx sy : RFLOAT) (s s' : Micrograph)
    (hr : IsShiftRecord r f sx sy)
    (hpost : ∀ o ∈ post, MDObject.getInt o EMDL_MICROGRAPH_FRAME_NUMBER ≠ some f)
    (h : forEach Micrograph.readGlobalShift (pre ++ r :: post) s = .ok s') :
    s'.globalShiftX[(f - 1).toNat]? = some sx ∧ s'.globalShiftY[(f - 1).toNat]? = some sy := by
  rw [forEach_append] at h
  cases hp : forEach Micrograph.readGlobalShift pre s with
  | error msg s1 => rw [hp] at h; cases h
  | undefined u => rw [hp] at h; cases h
  | ok s1 =>
    rw [hp] at h
    simp only [forEach] at h
    cases hb : Micrograph.readGlobalShift s1 r with
    | error msg s2 => rw [hb] at h; cases h
    | undefined u => rw [hb] at h; cases h
    | ok s2 =>
      rw [hb] at h
      simp only at h
      obtain ⟨f', sx', sy', ho, h1, hx, hy, e⟩ := Micrograph.readGlobalShift_ok_inv s1 s2 r hb
      obtain ⟨q1, q2, q3⟩ := hr
      obtain ⟨p1, p2, p3⟩ := ho
      have ef : f' = f := Option.some.inj (p1.symm.trans q1)
      have ex : sx' = sx := Option.some.inj (p2.symm.trans q2)
      have ey : sy' = sy := Option.some.inj (p3.symm.trans q3)
      subst ef ex ey
      obtain ⟨r1, r2⟩ := Micrograph.forEach_readGlobalShift_untouched post f' s2 s' h1 hpost h
      subst e
      have lx : (f' - 1).toNat < s1.globalShiftX.length := by omega
      have ly : (f' - 1).toNat < s1.globalShiftY.length := by omega
      rw [r1, r2]
      simp only [List.getElem?_set, if_true, if_pos lx, if_pos ly, and_self]


/-! ## What a run of `Micrograph::read` goes through -/

theorem Micrograph.readModel_ok_inv (tags : MotionModelTags) (model_version0 : Int)
    (s s' : Micrograph) (MD : MetaDataTable) (fh : StarFile)
    (h : Micrograph.readModel tags model_version0 s MD fh = .ok s') :
    ∃ m, s' = { s with model := m } := by
  unfold Micrograph.readModel at h
  split at h
  · simp only at h
    by_cases c1 : model_version0 = tags.MOTION_MODEL_THIRD_ORDER_POLYNOMIAL
    · simp only [if_pos c1] at h
      split at h
      · cases h
        exact ⟨_, rfl⟩
      · cases h
      · cases h
    · by_cases c2 : model_version0 = tags.MOTION_MODEL_NULL
      · simp only [if_neg c1, if_pos c2] at h
        cases h
      · simp only [if_neg c1, if_neg c2] at h
        split at h
        · cases h
        · split at h
          · cases h
            exact ⟨_, rfl⟩
          · cases h
          · cases h
  · cases h
    exact ⟨none, rfl⟩

theorem Micrograph.readModel_of_version (tags : MotionModelTags) (model_version0 : Int)
    (s : Micrograph) (MD : MetaDataTable) (fh : StarFile) (v : Int)
    (hv : MDObject.getValue MD.current EMDL_MICROGRAPH_MOTION_MODEL_VERSION = some (.int v)) :
    Micrograph.readModel tags model_version0 s MD fh = .ok { s with model := none } := by
  simp only [Micrograph.readModel, MDObject.getInt, hv]

/-- A run of `read` that returns normally has passed the general block, has both shift
arrays at length `n_frames` when the loop over `global_shift` starts, and ends with that
loop. -/
theorem Micrograph.read_ok_reaches_loop (tags : MotionModelTags) (model_version0 : Int)
    (prior M' : Micrograph) (fh : StarFile)
    (h : Micrograph.read tags model_version0 prior (some fh) = .ok M') :
    ∃ s : Micrograph, s.ShiftsMatchFrames ∧
      forEach Micrograph.readGlobalShift (MetaDataTable.readStar fh "global_shift").objects s
        = .ok M' := by
  unfold Micrograph.read at h
  simp only at h
  split at h
  · cases h
  · split at h
    · cases h
    · split at h
      · cases h
      · split at h
        · cases h
        · split at h
          · cases h
          · rename_i gx hgx
            split at h
            · cases h
            · rename_i gy hgy
              split at h
              · cases h
              · cases h
              · rename_i s hs
                obtain ⟨m, e⟩ := Micrograph.readModel_ok_inv _ _ _ _ _ _ hs
                refine ⟨s, ?_, h⟩
                have lx := vectorResize_length _ _ _ _ hgx
                have ly := vectorResize_length _ _ _ _ hgy
                subst e
                exact ⟨lx, ly⟩

/-- A negative frame count in the general block makes the first `resize` throw. -/
theorem Micrograph.read_negative_frames (tags : MotionModelTags) (model_version0 : Int)
    (prior : Micrograph) (fh : StarFile) (o : MDObject) (w h n : Int) (mv : String)
    (ho : (MetaDataTable.readStar fh "general").current = o)
    (hw : o.getValue EMDL_IMAGE_SIZEX = some (.int w))
    (hh : o.getValue EMDL_IMAGE_SIZEY = some (.int h))
    (hn : o.getValue EMDL_IMAGE_SIZEZ = some (.int n))
    (hmv : o.getValue EMDL_MICROGRAPH_MOVIE_NAME = some (.str mv))
    (hneg : n < 0) :
    ∃ s, Micrograph.read tags model_version0 prior (some fh) = .error "std::length_error" s := by
  simp only [Micrograph.read, ho, MDObject.getInt, MDObject.getString, hw, hh, hn, hmv,
    Micrograph.clear, vectorResize, if_pos hneg]
  exact ⟨_, rfl⟩

/-- A general block without one of the four required fields is reported before
anything else is read. -/
theorem Micrograph.read_missing_required (tags : MotionModelTags) (model_version0 : Int)
    (prior : Micrograph) (fh : StarFile)
    (h : MDObject.getInt (MetaDataTable.readStar fh "general").current EMDL_IMAGE_SIZEX = none ∨
      MDObject.getInt (MetaDataTable.readStar fh "general").current EMDL_IMAGE_SIZEY = none ∨
      MDObject.getInt (MetaDataTable.readStar fh "general").current EMDL_IMAGE_SIZEZ = none ∨
      MDObject.getString (MetaDataTable.readStar fh "general").current
        EMDL_MICROGRAPH_MOVIE_NAME = none) :
    ∃ s, Micrograph.read tags model_version0 prior (some fh) =
      .error "MicrographModel::read: insufficient general information" s := by
  unfold Micrograph.read
  simp only
  cases h1 : MDObject.getInt (MetaDataTable.readStar fh "general").current EMDL_IMAGE_SIZEX with
  | none => exact ⟨_, rfl⟩
  | some w =>
    cases h2 : MDObject.getInt (MetaDataTable.readStar fh "general").current
        EMDL_IMAGE_SIZEY with
    | none => exact ⟨_, rfl⟩
    | some hh =>
      cases h3 : MDObject.getInt (MetaDataTable.readStar fh "general").current
          EMDL_IMAGE_SIZEZ with
      | none => exact ⟨_, rfl⟩
      | some n =>
        cases h4 : MDObject.getString (MetaDataTable.readStar fh "general").current
            EMDL_MICROGRAPH_MOVIE_NAME with
        | none => exact ⟨_, rfl⟩
        | some mv =>
          rw [h1, h2, h3, h4] at h
          simp at h

theorem MDObject.getInt_of_getValue_none (o : MDObject) (l : EMDLabel)
    (h : MDObject.getValue o l = none) : MDObject.getInt o l = none := by
  simp [MDObject.getInt, h]

theorem MDObject.getReal_of_getValue_none (o : MDObject) (l : EMDLabel)
    (h : MDObject.getValue o l = none) : MDObject.getReal o l = none := by
  simp [MDObject.getReal, h]

theorem MDObject.getString_of_getValue_none (o : MDObject) (l : EMDLabel)
    (h : MDObject.getValue o l = none) : MDObject.getString o l = none := by
  simp [MDObject.getString, h]


/-! ## The length invariant of the shift arrays -/

theorem Micrograph.read_ok_shiftsMatchFrames (tags : MotionModelTags) (model_version0 : Int)
    (prior M' : Micrograph) (fn_in : Option StarFile)
    (h : Micrograph.read tags model_version0 prior fn_in = .ok M') : M'.ShiftsMatchFrames := by
  cases fn_in with
  | none => simp [Micrograph.read] at h
  | some fh =>
    obtain ⟨s, ⟨ix, iy⟩, hs⟩ := Micrograph.read_ok_reaches_loop tags model_version0 prior M' fh h
    obtain ⟨lx, ly, e⟩ := Micrograph.forEach_readGlobalShift_inv _ s M' hs
    have hn : M'.n_frames = s.n_frames := by rw [e]
    exact ⟨by rw [lx, hn]; exact ix, by rw [ly, hn]; exact iy⟩

/-- C15: both shift arrays have length `n_frames` after every `setMovie` and every `read`
that returns normally, whatever the state before the call; and every call of
`setGlobalShift` on a state with that property ends, by return or by the out-of-range
report, in a state with that property. -/
theorem C15_shift_lengths_invariant :
    (∀ (M M' : Micrograph) (fnMovie fnGain : FileName) (binning : RFLOAT) (Ihead : ImageHeader),
      M.setMovie fnMovie fnGain binning Ihead = .ok M' → M'.ShiftsMatchFrames) ∧
    (∀ (tags : MotionModelTags) (model_version0 : Int) (prior M' : Micrograph)
      (fn_in : Option StarFile),
      Micrograph.read tags model_version0 prior fn_in = .ok M' → M'.ShiftsMatchFrames) ∧
    (∀ (M : Micrograph) (frame : Int) (sx sy : RFLOAT), M.ShiftsMatchFrames →
      ((∃ M', M.setGlobalShift frame sx sy = .ok M' ∧ M'.ShiftsMatchFrames) ∨
       (∃ msg, M.setGlobalShift frame sx sy = .error msg M))) := by
  refine ⟨?_, ?_, ?_⟩
  · intro M M' fnMovie fnGain binning Ihead h
    obtain ⟨hn, hx, hy⟩ := Micrograph.setMovie_length M M' fnMovie fnGain binning Ihead h
    exact ⟨by rw [hn]; exact hx, by rw [hn]; exact hy⟩
  · intro tags model_version0 prior M' fn_in h
    exact Micrograph.read_ok_shiftsMatchFrames tags model_version0 prior M' fn_in h
  · intro M frame sx sy hinv
    obtain ⟨ix, iy⟩ := hinv
    by_cases hc : frame ≤ 0 ∨ frame > M.n_frames
    · right
      exact ⟨"Micrograph::setGlobalShift() frame out of range",
        by simp only [Micrograph.setGlobalShift, if_pos hc]⟩
    · left
      have cx : 0 ≤ frame - 1 ∧ frame - 1 < (M.globalShiftX.length : Int) := by omega
      have cy : 0 ≤ frame - 1 ∧ frame - 1 < (M.globalShiftY.length : Int) := by omega
      refine ⟨{ M with globalShiftX := M.globalShiftX.set (frame - 1).toNat sx,
                       globalShiftY := M.globalShiftY.set (frame - 1).toNat sy }, ?_, ?_⟩
      · simp only [Micrograph.setGlobalShift, if_neg hc, writeAt, if_pos cx, if_pos cy]
      · exact ⟨by simpa using ix, by simpa using iy⟩

/-- Witness of C15: `setGlobalShift` on the two-frame example micrograph, once with frame 2
and once with frame 3. -/
theorem C15_shift_lengths_invariant_witness :
    ((∃ M', exampleMicrograph.setGlobalShift 2 3 4 = .ok M' ∧ M'.ShiftsMatchFrames) ∨
      (∃ msg, exampleMicrograph.setGlobalShift 2 3 4 = .error msg exampleMicrograph)) ∧
    ((∃ M', exampleMicrograph.setGlobalShift 3 3 4 = .ok M' ∧ M'.ShiftsMatchFrames) ∨
      (∃ msg, exampleMicrograph.setGlobalShift 3 3 4 = .error msg exampleMicrograph)) :=
  ⟨C15_shift_lengths_invariant.2.2 exampleMicrograph 2 3 4 ⟨by decide, by decide⟩,
   C15_shift_lengths_invariant.2.2 exampleMicrograph 3 3 4 ⟨by decide, by decide⟩⟩

/-! ## The model-version field -/

/-- C13: when the general block holds the four required fields and a model-version field
whose value is neither the third-order tag nor the no-model tag, the model-version step
of `read` returns normally without a model; `read` as a whole can then only throw the
report of the `global_shift` table, every normal return is a micrograph without a model,
and `read` does return normally when every `global_shift` record carries its three fields
and a frame number in `[1, n_frames]`. -/
theorem C13_unknown_model_version (tags : MotionModelTags) (model_version0 : Int)
    (prior : Micrograph) (fh : StarFile) (o : MDObject) (w h : Int) (n : Nat) (mv : String)
    (v : Int)
    (ho : (MetaDataTable.readStar fh "general").current = o)
    (hw : o.getValue EMDL_IMAGE_SIZEX = some (.int w))
    (hh : o.getValue EMDL_IMAGE_SIZEY = some (.int h))
    (hn : o.getValue EMDL_IMAGE_SIZEZ = some (.int n))
    (hmv : o.getValue EMDL_MICROGRAPH_MOVIE_NAME = some (.str mv))
    (hv : o.getValue EMDL_MICROGRAPH_MOTION_MODEL_VERSION = some (.int v))
    (_hv1 : v ≠ tags.MOTION_MODEL_THIRD_ORDER_POLYNOMIAL) (_hv2 : v ≠ tags.MOTION_MODEL_NULL) :
    (∀ s : Micrograph,
      Micrograph.readModel tags model_version0 s (MetaDataTable.readStar fh "general") fh
        = .ok { s with model := none }) ∧
    (∀ M', Micrograph.read tags model_version0 prior (some fh) = .ok M' → M'.model = none) ∧
    (∀ msg s, Micrograph.read tags model_version0 prior (some fh) = .error msg s →
      msg = "MicrographModel::read: incorrect global_shift table") ∧
    ((∀ r ∈ (MetaDataTable.readStar fh "global_shift").objects,
        ∃ f sx sy, IsShiftRecord r f sx sy ∧ 1 ≤ f ∧ f ≤ (n : Int)) →
      ∃ M', Micrograph.read tags model_version0 prior (some fh) = .ok M' ∧ M'.model = none) := by
  have hread := Micrograph.read_of_general tags model_version0 prior fh o w h n mv v ho hw hh
    hn hmv hv
  have hmodel : ∀ M', Micrograph.read tags model_version0 prior (some fh) = .ok M' →
      M'.model = none := by
    intro M' hM
    rw [hread] at hM
    obtain ⟨-, -, e⟩ := Micrograph.forEach_readGlobalShift_inv _ _ M' hM
    rw [e]
  refine ⟨?_, hmodel, ?_, ?_⟩
  · intro s
    exact Micrograph.readModel_of_version tags model_version0 s _ fh v (by rw [ho]; exact hv)
  · intro msg s hs
    rw [hread] at hs
    exact Micrograph.forEach_readGlobalShift_error _ _ s msg hs
  · intro hrec
    obtain ⟨M', hM⟩ := Micrograph.forEach_readGlobalShift_ok
      (MetaDataTable.readStar fh "global_shift").objects (n : Int)
      { width := w, height := h, n_frames := n,
        binning := (o.getReal EMDL_MICROGRAPH_BINNING).getD 1,
        angpix := (o.getReal EMDL_MICROGRAPH_ORIGINAL_PIXEL_SIZE).getD (-1),
        pre_exposure := (o.getReal EMDL_MICROGRAPH_PRE_EXPOSURE).getD (-1),
        dose_per_frame := (o.getReal EMDL_MICROGRAPH_DOSE_RATE).getD (-1),
        voltage := (o.getReal EMDL_CTF_VOLTAGE).getD (-1),
        fnMovie := mv,
        fnGain := (o.getString EMDL_MICROGRAPH_GAIN_NAME).getD "",
        globalShiftX := List.replicate n Micrograph.NOT_OBSERVED,
        globalShiftY := List.replicate n Micrograph.NOT_OBSERVED,
        model := none } (by simp) (by simp) hrec
    exact ⟨M', by rw [hread]; exact hM, hmodel M' (by rw [hread]; exact hM)⟩


/-- Witness of C13: a file whose general block names model version 7. -/
theorem C13_unknown_model_version_witness :
    ∃ M', Micrograph.read exampleTags 0 exampleMicrograph (some exampleUnknownVersionFile)
      = .ok M' ∧ M'.model = none :=
  (C13_unknown_model_version exampleTags 0 exampleMicrograph exampleUnknownVersionFile
    exampleUnknownVersionRecord 4 5 2 "movie.mrc" 7
    (by simp [exampleUnknownVersionFile, MetaDataTable.readStar_cons, MetaDataTable.current])
    (by simp [exampleUnknownVersionRecord, MDObject.getValue])
    (by simp [exampleUnknownVersionRecord, MDObject.getValue])
    (by simp [exampleUnknownVersionRecord, MDObject.getValue])
    (by simp [exampleUnknownVersionRecord, MDObject.getValue])
    (by simp [exampleUnknownVersionRecord, MDObject.getValue])
    (by decide) (by decide)).2.2.2
    (by
      intro r hr
      have hs : MetaDataTable.readStar exampleUnknownVersionFile "global_shift" =
          { name := "global_shift", isList := false,
            objects := [shiftRecord 1 10 20, shiftRecord 2 1 2] } := by
        simp [exampleUnknownVersionFile, MetaDataTable.readStar_cons]
      rw [hs] at hr
      simp only [List.mem_cons, List.mem_singleton, List.not_mem_nil, or_false] at hr
      rcases hr with rfl | rfl
      · exact ⟨1, 10, 20, getValue_shiftRecord 1 10 20, by decide, by decide⟩
      · exact ⟨2, 1, 2, getValue_shiftRecord 2 1 2, by decide, by decide⟩)

/-! ## Missing fields -/

/-- C12, evaluated: in `exampleBadShiftFile` the second `global_shift` record has no shift
fields, but the first record carries frame number 1000000000, and line 196 writes slot
999999999 of a two-entry vector without the range check that `setGlobalShift` makes for
the same frame at line 274: the run has undefined behaviour before the record without
shifts is examined at line 189. -/
theorem C12_unchecked_write_before_report :
    (∃ r ∈ (MetaDataTable.readStar exampleBadShiftFile "global_shift").objects,
      MDObject.getValue r EMDL_MICROGRAPH_SHIFT_X = none) ∧
    Micrograph.read exampleTags 0 exampleMicrograph (some exampleBadShiftFile)
      = .undefined .outOfBounds ∧
    exampleMicrograph.setGlobalShift 1000000000 1 1
      = .error "Micrograph::setGlobalShift() frame out of range" exampleMicrograph := by
  obtain ⟨o, ho, f1, f2, f3, f4, -, -, -, -, -, -, f11⟩ :=
    Micrograph.writeGeneral_fields exampleTags exampleMicrograph
  have hg : (MetaDataTable.readStar exampleBadShiftFile "general").current = o := by
    simp [exampleBadShiftFile, MetaDataTable.readStar_cons, ho, MetaDataTable.current]
  have hs : MetaDataTable.readStar exampleBadShiftFile "global_shift" =
      { name := "global_shift", isList := false,
        objects := [shiftRecord 1000000000 1 1,
          [(EMDL_MICROGRAPH_FRAME_NUMBER, MDValue.int 1)]] } := by
    simp [exampleBadShiftFile, MetaDataTable.readStar_cons, ho]
  have hread : Micrograph.read exampleTags 0 exampleMicrograph (some exampleBadShiftFile)
      = .undefined .outOfBounds := by
    rw [Micrograph.read_of_general exampleTags 0 exampleMicrograph exampleBadShiftFile o
      exampleMicrograph.width exampleMicrograph.height 2 exampleMicrograph.fnMovie _ hg f1 f2
      f3 f4 f11, hs]
    obtain ⟨g1, g2, g3⟩ := getValue_shiftRecord 1000000000 1 1
    simp only [forEach, Micrograph.readGlobalShift, g1, g2, g3]
    rw [writeAt_of_ge _ _ _ (by simp)]
  refine ⟨?_, hread, ?_⟩
  · rw [hs]
    exact ⟨[(EMDL_MICROGRAPH_FRAME_NUMBER, MDValue.int 1)], by simp,
      by simp [MDObject.getValue]⟩
  · have hout : (1000000000 : Int) ≤ 0 ∨ (1000000000 : Int) > exampleMicrograph.n_frames :=
      Or.inr (by decide)
    simp only [Micrograph.setGlobalShift, if_pos hout]

/-- Missing fields that `read` does report: `read` throws the report of insufficient
general information whenever the general block lacks the width, height, frame-count or
movie-name field, without putting a default in its place; and when the general block holds those four fields and a
model-version field, `read` throws whenever a record of the `global_shift` block lacks its
frame number, shiftX or shiftY field and every record before it carries all three fields
and a frame number in `[1, n_frames]`. -/
theorem Micrograph.read_rejects_missing_fields (tags : MotionModelTags) (model_version0 : Int)
    (prior : Micrograph) (fh : StarFile) :
    ((MDObject.getValue (MetaDataTable.readStar fh "general").current EMDL_IMAGE_SIZEX = none ∨
      MDObject.getValue (MetaDataTable.readStar fh "general").current EMDL_IMAGE_SIZEY = none ∨
      MDObject.getValue (MetaDataTable.readStar fh "general").current EMDL_IMAGE_SIZEZ = none ∨
      MDObject.getValue (MetaDataTable.readStar fh "general").current
        EMDL_MICROGRAPH_MOVIE_NAME = none) →
      ∃ s, Micrograph.read tags model_version0 prior (some fh) =
        .error "MicrographModel::read: insufficient general information" s) ∧
    (∀ (w h n v : Int) (mv : String) (pre post : List MDObject) (bad : MDObject),
      MDObject.getValue (MetaDataTable.readStar fh "general").current EMDL_IMAGE_SIZEX
        = some (.int w) →
      MDObject.getValue (MetaDataTable.readStar fh "general").current EMDL_IMAGE_SIZEY
        = some (.int h) →
      MDObject.getValue (MetaDataTable.readStar fh "general").current EMDL_IMAGE_SIZEZ
        = some (.int n) →
      MDObject.getValue (MetaDataTable.readStar fh "general").current
        EMDL_MICROGRAPH_MOVIE_NAME = some (.str mv) →
      MDObject.getValue (MetaDataTable.readStar fh "general").current
        EMDL_MICROGRAPH_MOTION_MODEL_VERSION = some (.int v) →
      (MetaDataTable.readStar fh "global_shift").objects = pre ++ bad :: post →
      (∀ r ∈ pre, ∃ f sx sy, IsShiftRecord r f sx sy ∧ 1 ≤ f ∧ f ≤ n) →
      (MDObject.getValue bad EMDL_MICROGRAPH_FRAME_NUMBER = none ∨
        MDObject.getValue bad EMDL_MICROGRAPH_SHIFT_X = none ∨
        MDObject.getValue bad EMDL_MICROGRAPH_SHIFT_Y = none) →
      ∃ msg s, Micrograph.read tags model_version0 prior (some fh) = .error msg s) := by
  constructor
  · intro hmiss
    apply Micrograph.read_missing_required
    rcases hmiss with h | h | h | h
    · exact Or.inl (MDObject.getInt_of_getValue_none _ _ h)
    · exact Or.inr (Or.inl (MDObject.getInt_of_getValue_none _ _ h))
    · exact Or.inr (Or.inr (Or.inl (MDObject.getInt_of_getValue_none _ _ h)))
    · exact Or.inr (Or.inr (Or.inr (MDObject.getString_of_getValue_none _ _ h)))
  · intro w h n v mv pre post bad hw hh hn hmv hv hobjs hpre hbad
    by_cases hneg : n < 0
    · obtain ⟨s, hs⟩ := Micrograph.read_negative_frames tags model_version0 prior fh _ w h n mv
        rfl hw hh hn hmv hneg
      exact ⟨_, s, hs⟩
    · have en : n = ((n.toNat : Nat) : Int) := by omega
      rw [en] at hn hpre
      rw [Micrograph.read_of_general tags model_version0 prior fh _ w h n.toNat mv v rfl hw hh
        hn hmv hv, hobjs, forEach_append]
      obtain ⟨s1, hs1⟩ := Micrograph.forEach_readGlobalShift_ok pre (n.toNat : Int)
        { width := w, height := h, n_frames := n.toNat,
          binning := (MDObject.getReal (MetaDataTable.readStar fh "general").current
            EMDL_MICROGRAPH_BINNING).getD 1,
          angpix := (MDObject.getReal (MetaDataTable.readStar fh "general").current
            EMDL_MICROGRAPH_ORIGINAL_PIXEL_SIZE).getD (-1),
          pre_exposure := (MDObject.getReal (MetaDataTable.readStar fh "general").current
            EMDL_MICROGRAPH_PRE_EXPOSURE).getD (-1),
          dose_per_frame := (MDObject.getReal (MetaDataTable.readStar fh "general").current
            EMDL_MICROGRAPH_DOSE_RATE).getD (-1),
          voltage := (MDObject.getReal (MetaDataTable.readStar fh "general").current
            EMDL_CTF_VOLTAGE).getD (-1),
          fnMovie := mv,
          fnGain := (MDObject.getString (MetaDataTable.readStar fh "general").current
            EMDL_MICROGRAPH_GAIN_NAME).getD "",
          globalShiftX := List.replicate n.toNat Micrograph.NOT_OBSERVED,
          globalShiftY := List.replicate n.toNat Micrograph.NOT_OBSERVED,
          model := none } (by simp) (by simp) hpre
      rw [hs1]
      have hb : Micrograph.readGlobalShift s1 bad =
          .error "MicrographModel::read: incorrect global_shift table" s1 := by
        apply Micrograph.readGlobalShift_missing
        rcases hbad with h | h | h
        · exact Or.inl (MDObject.getInt_of_getValue_none _ _ h)
        · exact Or.inr (Or.inl (MDObject.getReal_of_getValue_none _ _ h))
        · exact Or.inr (Or.inr (MDObject.getReal_of_getValue_none _ _ h))
      simp only [forEach, hb]
      exact ⟨_, s1, rfl⟩


/-- A record without shift fields after a complete record for frame 1 is reported. -/
theorem Micrograph.read_reports_missing_shift_example :
    ∃ msg s, Micrograph.read exampleTags 0 exampleMicrograph (some exampleMissingShiftFile)
      = .error msg s := by
  obtain ⟨o, ho, f1, f2, f3, f4, -, -, -, -, -, -, f11⟩ :=
    Micrograph.writeGeneral_fields exampleTags exampleMicrograph
  have hg : (MetaDataTable.readStar exampleMissingShiftFile "general").current = o := by
    simp [exampleMissingShiftFile, MetaDataTable.readStar_cons, ho, MetaDataTable.current]
  have hs : (MetaDataTable.readStar exampleMissingShiftFile "global_shift").objects =
      [shiftRecord 1 10 20] ++ [(EMDL_MICROGRAPH_FRAME_NUMBER, MDValue.int 2)] :: [] := by
    simp [exampleMissingShiftFile, MetaDataTable.readStar_cons, ho]
  exact (Micrograph.read_rejects_missing_fields exampleTags 0 exampleMicrograph
    exampleMissingShiftFile).2 exampleMicrograph.width exampleMicrograph.height 2 _
    exampleMicrograph.fnMovie [shiftRecord 1 10 20] []
    [(EMDL_MICROGRAPH_FRAME_NUMBER, MDValue.int 2)]
    (by rw [hg]; exact f1) (by rw [hg]; exact f2) (by rw [hg]; exact f3) (by rw [hg]; exact f4)
    (by rw [hg]; exact f11) hs
    (by
      intro r hr
      simp only [List.mem_singleton] at hr
      subst hr
      exact ⟨1, 10, 20, getValue_shiftRecord 1 10 20, by decide, by decide⟩)
    (Or.inr (Or.inl (by simp [MDObject.getValue])))

/-! ## Duplicate frame numbers -/

/-- C17: whenever `read` returns normally, the slot of each frame `f` that occurs in the
`global_shift` block holds the shifts of the last record that carries frame number `f`,
whatever the order of the other records; and `read` does return normally when the general
block holds the four required fields and a model-version field and every `global_shift`
record carries its three fields and a frame number in `[1, n_frames]`. -/
theorem C17_last_write_wins (tags : MotionModelTags) (model_version0 : Int)
    (prior : Micrograph) (fh : StarFile) :
    (∀ M', Micrograph.read tags model_version0 prior (some fh) = .ok M' →
      ∀ (pre post : List MDObject) (r : MDObject) (f : Int) (sx sy : RFLOAT),
        (MetaDataTable.readStar fh "global_shift").objects = pre ++ r :: post →
        IsShiftRecord r f sx sy →
        (∀ o ∈ post, MDObject.getInt o EMDL_MICROGRAPH_FRAME_NUMBER ≠ some f) →
        M'.globalShiftX[(f - 1).toNat]? = some sx ∧ M'.globalShiftY[(f - 1).toNat]? = some sy) ∧
    (∀ (w h v : Int) (n : Nat) (mv : String),
      MDObject.getValue (MetaDataTable.readStar fh "general").current EMDL_IMAGE_SIZEX
        = some (.int w) →
      MDObject.getValue (MetaDataTable.readStar fh "general").current EMDL_IMAGE_SIZEY
        = some (.int h) →
      MDObject.getValue (MetaDataTable.readStar fh "general").current EMDL_IMAGE_SIZEZ
        = some (.int n) →
      MDObject.getValue (MetaDataTable.readStar fh "general").current
        EMDL_MICROGRAPH_MOVIE_NAME = some (.str mv) →
      MDObject.getValue (MetaDataTable.readStar fh "general").current
        EMDL_MICROGRAPH_MOTION_MODEL_VERSION = some (.int v) →
      (∀ r ∈ (MetaDataTable.readStar fh "global_shift").objects,
        ∃ f sx sy, IsShiftRecord r f sx sy ∧ 1 ≤ f ∧ f ≤ (n : Int)) →
      ∃ M', Micrograph.read tags model_version0 prior (some fh) = .ok M' ∧
        M'.n_frames = n) := by
  constructor
  · intro M' hM pre post r f sx sy hobjs hr hpost
    obtain ⟨s, -, hs⟩ := Micrograph.read_ok_reaches_loop tags model_version0 prior M' fh hM
    rw [hobjs] at hs
    exact Micrograph.forEach_readGlobalShift_last pre post r f sx sy s M' hr hpost hs
  · intro w h v n mv hw hh hn hmv hv hrec
    have hread := Micrograph.read_of_general tags model_version0 prior fh _ w h n mv v rfl hw hh
      hn hmv hv
    rw [hread]
    exact Micrograph.forEach_readGlobalShift_ok_frames _ (n : Int) _ (by simp) (by simp) hrec

/-- Witness of C17: in `exampleDuplicateShiftFile` frame 1 is given twice; after `read` its
slot holds the shifts `(30, 40)` of the later record. -/
theorem C17_last_write_wins_witness :
    ∃ M', Micrograph.read exampleTags 0 exampleMicrograph (some exampleDuplicateShiftFile)
        = .ok M' ∧
      M'.globalShiftX[((1 : Int) - 1).toNat]? = some 30 ∧
      M'.globalShiftY[((1 : Int) - 1).toNat]? = some 40 := by
  obtain ⟨o, ho, f1, f2, f3, f4, -, -, -, -, -, -, f11⟩ :=
    Micrograph.writeGeneral_fields exampleTags exampleMicrograph
  have hg : (MetaDataTable.readStar exampleDuplicateShiftFile "general").current = o := by
    simp [exampleDuplicateShiftFile, MetaDataTable.readStar_cons, ho, MetaDataTable.current]
  have hs : (MetaDataTable.readStar exampleDuplicateShiftFile "global_shift").objects =
      [shiftRecord 1 10 20, shiftRecord 2 1 2] ++ shiftRecord 1 30 40 :: [] := by
    simp [exampleDuplicateShiftFile, MetaDataTable.readStar_cons, ho]
  have w := C17_last_write_wins exampleTags 0 exampleMicrograph exampleDuplicateShiftFile
  obtain ⟨M', hM, -⟩ := w.2 exampleMicrograph.width exampleMicrograph.height _ 2
    exampleMicrograph.fnMovie (by rw [hg]; exact f1) (by rw [hg]; exact f2)
    (by rw [hg]; exact f3) (by rw [hg]; exact f4) (by rw [hg]; exact f11)
    (by
      intro r hr
      rw [hs] at hr
      simp only [List.cons_append, List.nil_append, List.mem_cons, List.mem_singleton,
        List.not_mem_nil, or_false] at hr
      rcases hr with rfl | rfl | rfl
      · exact ⟨1, 10, 20, getValue_shiftRecord 1 10 20, by decide, by decide⟩
      · exact ⟨2, 1, 2, getValue_shiftRecord 2 1 2, by decide, by decide⟩
      · exact ⟨1, 30, 40, getValue_shiftRecord 1 30 40, by decide, by decide⟩)
  exact ⟨M', hM, w.1 M' hM _ _ _ 1 30 40 hs (getValue_shiftRecord 1 30 40)
    (by intro o' ho'; cases ho')⟩


/-! ## A block that repeats one index -/

theorem set_zero_twice (l : List RFLOAT) (a b : RFLOAT) : (l.set 0 a).set 0 b = l.set 0 b := by
  cases l <;> rfl

/-- Records that all carry index 0 overwrite `coeffX(0)` one after the other. -/
theorem ThirdOrderPolynomialModel.forEach_readObject_repeated (val : Nat → RFLOAT) (k : Nat)
    (m0 : ThirdOrderPolynomialModel) (j : Int) (hl : 0 < m0.coeffX.length) :
    forEach ThirdOrderPolynomialModel.readObject
        ((List.range (k + 1)).map fun (i : Nat) => coeffRecord 0 (val i)) (m0, j) =
      .ok ({ m0 with coeffX := m0.coeffX.set 0 (val k) }, j + ((k + 1 : Nat) : Int)) := by
  have c1 : (0 : Int) ≥ 0 ∧ (0 : Int) < ThirdOrderPolynomialModel.NUM_COEFFS_PER_DIM := by
    simp [ThirdOrderPolynomialModel.NUM_COEFFS_PER_DIM]
  induction k with
  | zero =>
    obtain ⟨g1, g2⟩ := getValue_coeffRecord 0 (val 0)
    have w0 : writeAt m0.coeffX 0 (val 0) = some (m0.coeffX.set 0 (val 0)) := by
      have := writeAt_of_lt m0.coeffX 0 (val 0) hl
      simpa using this
    simp [forEach, ThirdOrderPolynomialModel.readObject, g1, g2, c1, w0]
  | succ k ih =>
    rw [List.range_succ, List.map_append, forEach_append, ih]
    obtain ⟨g1, g2⟩ := getValue_coeffRecord 0 (val (k + 1))
    have w0 : writeAt (m0.coeffX.set 0 (val k)) 0 (val (k + 1)) =
        some (m0.coeffX.set 0 (val (k + 1))) := by
      have := writeAt_of_lt (m0.coeffX.set 0 (val k)) 0 (val (k + 1)) (by simpa using hl)
      rw [set_zero_twice] at this
      simpa using this
    simp only [List.map_cons, List.map_nil, forEach, ThirdOrderPolynomialModel.readObject, g1,
      g2, c1, and_self, if_true, w0]
    congr 2
    push_cast
    ring

/-- C20: `exampleRepeatedBlock` holds exactly 36 records, each with an index field and a
value field, and every index field is 0, so none of the indices 1 to 35 occurs. `read`
accepts the block without an error: `coeffX(0)` keeps the value 36 of the last record and
every other coefficient of both axes is left at zero. -/
theorem C20_repeated_index_accepted :
    exampleRepeatedBlock.objects.length = 36 ∧
    (∀ o ∈ exampleRepeatedBlock.objects,
      MDObject.getInt o EMDL_MICROGRAPH_MOTION_COEFFS_IDX = some 0 ∧
      ∃ c, MDObject.getReal o EMDL_MICROGRAPH_MOTION_COEFF = some c) ∧
    exampleRepeatedBlock.objects.getLast? = some (coeffRecord 0 36) ∧
    ThirdOrderPolynomialModel.read [exampleRepeatedBlock] "local_motion_model" =
      .ok { coeffX := 36 :: List.replicate 17 0, coeffY := List.replicate 18 0 } := by
  refine ⟨by simp [exampleRepeatedBlock], ?_, ?_, ?_⟩
  · intro o ho
    simp only [exampleRepeatedBlock, List.mem_map] at ho
    obtain ⟨i, -, rfl⟩ := ho
    exact ⟨(getValue_coeffRecord _ _).1, _, (getValue_coeffRecord _ _).2⟩
  · simp only [exampleRepeatedBlock, List.range_succ, List.map_append, List.map_cons,
      List.map_nil, List.getLast?_concat]
    norm_num
  · have hr : MetaDataTable.readStar [exampleRepeatedBlock] "local_motion_model" =
        exampleRepeatedBlock := by
      simp [MetaDataTable.readStar_cons, exampleRepeatedBlock]
    have e : ThirdOrderPolynomialModel.NUM_COEFFS_PER_DIM.toNat = 18 := rfl
    have hloop := ThirdOrderPolynomialModel.forEach_readObject_repeated
      (fun i => (i : RFLOAT) + 1) 35
      { coeffX := List.replicate 18 0, coeffY := List.replicate 18 0 } 0 (by simp)
    beta_reduce at hloop
    simp only [ThirdOrderPolynomialModel.read, hr, e]
    simp only [exampleRepeatedBlock, hloop]
    norm_num [ThirdOrderPolynomialModel.NUM_COEFFS_PER_DIM, List.replicate]


/-! ## The parameter search of §4.3 -/

namespace MotionParamEstimator

theorem candidates_five (c r : RFLOAT) :
    candidates c r 5 = [c - r, c - r / 2, c, c + r / 2, c + r] := by
  have e0 : c - r + 2 * r * ((0 : ℕ) : RFLOAT) / (((5 : ℕ) : RFLOAT) - 1) = c - r := by norm_num
  have e1 : c - r + 2 * r * ((1 : ℕ) : RFLOAT) / (((5 : ℕ) : RFLOAT) - 1) = c - r / 2 := by
    push_cast; ring
  have e2 : c - r + 2 * r * ((2 : ℕ) : RFLOAT) / (((5 : ℕ) : RFLOAT) - 1) = c := by push_cast; ring
  have e3 : c - r + 2 * r * ((3 : ℕ) : RFLOAT) / (((5 : ℕ) : RFLOAT) - 1) = c + r / 2 := by
    push_cast; ring
  have e4 : c - r + 2 * r * ((4 : ℕ) : RFLOAT) / (((5 : ℕ) : RFLOAT) - 1) = c + r := by
    push_cast; ring
  simp only [candidates, List.range_succ, List.range_zero, List.nil_append, List.cons_append,
    List.map_cons, List.map_nil, e0, e1, e2, e3, e4]

theorem argmin_spec (score : RFLOAT → RFLOAT → RFLOAT) (l : List (RFLOAT × RFLOAT)) (best : RFLOAT × RFLOAT) :
    (argmin score l best = best ∨ argmin score l best ∈ l) ∧
    score (argmin score l best).1 (argmin score l best).2 ≤ score best.1 best.2 ∧
    ∀ p ∈ l, score (argmin score l best).1 (argmin score l best).2 ≤ score p.1 p.2 := by
  induction l generalizing best with
  | nil => simp [argmin]
  | cons q rest ih =>
    simp only [argmin]
    by_cases hlt : score q.1 q.2 < score best.1 best.2
    · simp only [if_pos hlt]
      obtain ⟨h1, h2, h3⟩ := ih q
      refine ⟨?_, le_trans h2 (le_of_lt hlt), ?_⟩
      · rcases h1 with h | h
        · right; rw [h]; exact List.mem_cons_self _ _
        · right; exact List.mem_cons_of_mem _ h
      · intro p hp
        rcases List.mem_cons.mp hp with rfl | hp'
        · exact h2
        · exact h3 p hp'
    · simp only [if_neg hlt]
      obtain ⟨h1, h2, h3⟩ := ih best
      refine ⟨?_, h2, ?_⟩
      · rcases h1 with h | h
        · left; exact h
        · right; exact List.mem_cons_of_mem _ h
      · intro p hp
        rcases List.mem_cons.mp hp with rfl | hp'
        · exact le_trans h2 (not_lt.mp hlt)
        · exact h3 p hp'

theorem gridLevel_spec (score : RFLOAT → RFLOAT → RFLOAT) (steps : Nat) (best : RFLOAT × RFLOAT) (range : RFLOAT)
    (hne : List.product (candidates best.1 range steps) (candidates best.2 range steps) ≠ []) :
    gridLevel score steps best range ∈
        List.product (candidates best.1 range steps) (candidates best.2 range steps) ∧
    ∀ p ∈ List.product (candidates best.1 range steps) (candidates best.2 range steps),
      score (gridLevel score steps best range).1 (gridLevel score steps best range).2
        ≤ score p.1 p.2 := by
  unfold gridLevel
  cases hl : List.product (candidates best.1 range steps) (candidates best.2 range steps) with
  | nil => exact absurd hl hne
  | cons q rest =>
    simp only
    obtain ⟨h1, h2, h3⟩ := argmin_spec score rest q
    refine ⟨?_, ?_⟩
    · rcases h1 with h | h
      · rw [h]; exact List.mem_cons_self _ _
      · exact List.mem_cons_of_mem _ h
    · intro p hp
      rcases List.mem_cons.mp hp with rfl | hp'
      · exact h2
      · exact h3 p hp'

theorem nearest_candidate (c r a : RFLOAT) (ha : |a - c| ≤ r) :
    ∃ g ∈ candidates c r 5, |g - a| ≤ r / 4 := by
  rw [candidates_five]
  obtain ⟨h1, h2⟩ := abs_le.mp ha
  by_cases c1 : a - c ≤ -(3 * r / 4)
  · exact ⟨c - r, by simp, abs_le.mpr ⟨by linarith, by linarith⟩⟩
  · by_cases c2 : a - c ≤ -(r / 4)
    · exact ⟨c - r / 2, by simp, abs_le.mpr ⟨by linarith, by linarith⟩⟩
    · by_cases c3 : a - c ≤ r / 4
      · exact ⟨c, by simp, abs_le.mpr ⟨by linarith, by linarith⟩⟩
      · by_cases c4 : a - c ≤ 3 * r / 4
        · exact ⟨c + r / 2, by simp, abs_le.mpr ⟨by linarith, by linarith⟩⟩
        · exact ⟨c + r, by simp, abs_le.mpr ⟨by linarith, by linarith⟩⟩

/-- One level of the search on a paraboloid without cross term: each coordinate of the
selected tuple is as close to the minimum as the nearest candidate of that coordinate. -/
theorem gridLevel_separable (A C a b c0 : RFLOAT) (hA : 0 < A) (hC : 0 < C)
    (best : RFLOAT × RFLOAT) (r : RFLOAT) (ha : |a - best.1| ≤ r) (hb : |b - best.2| ≤ r) :
    |(gridLevel (paraboloid A 0 C a b c0) 5 best r).1 - a| ≤ r / 4 ∧
    |(gridLevel (paraboloid A 0 C a b c0) 5 best r).2 - b| ≤ r / 4 := by
  have hne : List.product (candidates best.1 r 5) (candidates best.2 r 5) ≠ [] := by
    rw [candidates_five, candidates_five]
    simp [List.product]
  obtain ⟨hmem, hmin⟩ := gridLevel_spec (paraboloid A 0 C a b c0) 5 best r hne
  generalize gridLevel (paraboloid A 0 C a b c0) 5 best r = res at hmem hmin ⊢
  obtain ⟨rv, rd⟩ := res
  obtain ⟨mv, md⟩ := List.pair_mem_product.mp hmem
  obtain ⟨gv, hgv, egv⟩ := nearest_candidate best.1 r a ha
  obtain ⟨gd, hgd, egd⟩ := nearest_candidate best.2 r b hb
  have kv := hmin (gv, rd) (List.pair_mem_product.mpr ⟨hgv, md⟩)
  have kd := hmin (rv, gd) (List.pair_mem_product.mpr ⟨mv, hgd⟩)
  simp only [paraboloid, mul_zero, zero_mul, add_zero] at kv kd
  have sv : (rv - a) ^ 2 ≤ (gv - a) ^ 2 := by
    have : A * (rv - a) ^ 2 ≤ A * (gv - a) ^ 2 := by linarith
    exact le_of_mul_le_mul_left this hA
  have sd : (rd - b) ^ 2 ≤ (gd - b) ^ 2 := by
    have : C * (rd - b) ^ 2 ≤ C * (gd - b) ^ 2 := by linarith
    exact le_of_mul_le_mul_left this hC
  exact ⟨le_trans (sq_le_sq.mp sv) egv, le_trans (sq_le_sq.mp sd) egd⟩

set_option maxRecDepth 8000 in
theorem example_level_one : gridLevel (paraboloid 3 10 51 0 (-1) 0) 5 (0, 0) 8 = (-4, 0) := by
  simp only [gridLevel, candidates_five, List.product, List.flatMap, List.map, List.flatten,
    List.append]
  norm_num [argmin, paraboloid]

set_option maxRecDepth 8000 in
theorem example_level_two : gridLevel (paraboloid 3 10 51 0 (-1) 0) 5 (-4, 0) 4 = (-4, 0) := by
  simp only [gridLevel, candidates_five, List.product, List.flatMap, List.map, List.flatten,
    List.append]
  norm_num [argmin, paraboloid]

set_option maxRecDepth 8000 in
theorem example_level_three :
    gridLevel (paraboloid 3 10 51 0 (-1) 0) 5 (-4, 0) 2 = (-2, -1) := by
  simp only [gridLevel, candidates_five, List.product, List.flatMap, List.map, List.flatten,
    List.append]
  norm_num [argmin, paraboloid]

set_option maxRecDepth 8000 in
/-- At the first level the best tuple is the only one of lowest score. -/
theorem example_level_one_strict :
    ∀ p ∈ List.product (candidates 0 8 5) (candidates 0 8 5), p ≠ (-4, 0) →
      paraboloid 3 10 51 0 (-1) 0 (-4) 0 < paraboloid 3 10 51 0 (-1) 0 p.1 p.2 := by
  simp only [candidates_five, List.product, List.flatMap, List.map, List.flatten, List.append,
    List.forall_mem_cons]
  norm_num [paraboloid]

set_option maxRecDepth 8000 in
/-- At the second level the best tuple is the only one of lowest score. -/
theorem example_level_two_strict :
    ∀ p ∈ List.product (candidates (-4) 4 5) (candidates 0 4 5), p ≠ (-4, 0) →
      paraboloid 3 10 51 0 (-1) 0 (-4) 0 < paraboloid 3 10 51 0 (-1) 0 p.1 p.2 := by
  simp only [candidates_five, List.product, List.flatMap, List.map, List.flatten, List.append,
    List.forall_mem_cons]
  norm_num [paraboloid]

set_option maxRecDepth 8000 in
/-- At the third level the best tuple is the only one of lowest score. -/
theorem example_level_three_strict :
    ∀ p ∈ List.product (candidates (-4) 2 5) (candidates 0 2 5), p ≠ (-2, -1) →
      paraboloid 3 10 51 0 (-1) 0 (-2) (-1) < paraboloid 3 10 51 0 (-1) 0 p.1 p.2 := by
  simp only [candidates_five, List.product, List.flatMap, List.map, List.flatten, List.append,
    List.forall_mem_cons]
  norm_num [paraboloid]

end MotionParamEstimator

/-- C16, as stated, fails on the search of §4.3: the quality function
`3 v^2 + 20 v (d + 1) + 51 (d + 1)^2` is a strictly convex paraboloid (`0 < 3` and
`0 < 3 * 51 - 10^2`) whose minimum `(0, -1)` lies within `maxRange = 8` of the start
`(0, 0)`; with `steps = 5` and `recursions = 3` the search returns `(-2, -1)`, and
`|-2 - 0| = 2` exceeds `maxRange / 2^3 = 1`. -/
theorem C16_counterexample :
    (0 : RFLOAT) < 3 ∧ (0 : RFLOAT) < 3 * 51 - 10 ^ 2 ∧
    (∀ v d : RFLOAT, paraboloid 3 10 51 0 (-1) 0 0 (-1) ≤ paraboloid 3 10 51 0 (-1) 0 v d) ∧
    |(0 : RFLOAT) - exampleEstimator.rV| ≤ exampleEstimator.maxRange ∧
    |(-1 : RFLOAT) - exampleEstimator.rD| ≤ exampleEstimator.maxRange ∧
    exampleEstimator.steps = 5 ∧ exampleEstimator.recursions = 3 ∧
    exampleEstimator.estimateTwoParamsRec (paraboloid 3 10 51 0 (-1) 0) = (-2, -1) ∧
    ¬ |(exampleEstimator.estimateTwoParamsRec (paraboloid 3 10 51 0 (-1) 0)).1 - 0|
        ≤ (exampleEstimator.maxRange : RFLOAT) / 2 ^ 3 := by
  have l1 := MotionParamEstimator.example_level_one
  have l2 := MotionParamEstimator.example_level_two
  have l3 := MotionParamEstimator.example_level_three
  have e8 : ((8 : Int) : RFLOAT) = 8 := by norm_num
  have e4 : (8 : RFLOAT) / 2 = 4 := by norm_num
  have e2 : (4 : RFLOAT) / 2 = 2 := by norm_num
  have n5 : (5 : Int).toNat = 5 := rfl
  have n3 : (3 : Int).toNat = 3 := rfl
  have res : exampleEstimator.estimateTwoParamsRec (paraboloid 3 10 51 0 (-1) 0) = (-2, -1) := by
    simp only [MotionParamEstimator.estimateTwoParamsRec, exampleEstimator, n5, n3,
      MotionParamEstimator.search, e8, l1, e4, l2, e2, l3]
  refine ⟨by norm_num, by norm_num, ?_, by norm_num [exampleEstimator],
    by norm_num [exampleEstimator], rfl, rfl, res, ?_⟩
  · intro v d
    have h : paraboloid 3 10 51 0 (-1) 0 v d
        = 3 * (v + 10 / 3 * (d + 1)) ^ 2 + 53 / 3 * (d + 1) ^ 2 := by
      simp only [paraboloid]; ring
    rw [h]
    have h0 : paraboloid 3 10 51 0 (-1) 0 0 (-1) = 0 := by norm_num [paraboloid]
    rw [h0]
    positivity
  · rw [res]
    norm_num [exampleEstimator]

/-- C16, amended: for every strictly convex paraboloid without cross term,
`A (rV - a)^2 + C (rD - b)^2 + c0` with `0 < A` and `0 < C`, whose minimum `(a, b)` lies
within `maxRange` of the starting values, the search of §4.3 with `steps = 5` and
`recursions = 3` returns an estimate `(rV, rD)` with `|rV - a| <= maxRange / 2^3` and
`|rD - b| <= maxRange / 2^3`. -/
theorem C16_search_converges_separable (E : MotionParamEstimator) (A C a b c0 : RFLOAT)
    (hA : 0 < A) (hC : 0 < C) (hsteps : E.steps = 5) (hrec : E.recursions = 3)
    (ha : |a - E.rV| ≤ E.maxRange) (hb : |b - E.rD| ≤ E.maxRange) :
    |(E.estimateTwoParamsRec (paraboloid A 0 C a b c0)).1 - a| ≤ (E.maxRange : RFLOAT) / 2 ^ 3 ∧
    |(E.estimateTwoParamsRec (paraboloid A 0 C a b c0)).2 - b| ≤ (E.maxRange : RFLOAT) / 2 ^ 3 := by
  have hR : (0 : RFLOAT) ≤ E.maxRange := le_trans (abs_nonneg _) ha
  have e5 : E.steps.toNat = 5 := by rw [hsteps]; rfl
  have e3 : E.recursions.toNat = 3 := by rw [hrec]; rfl
  simp only [MotionParamEstimator.estimateTwoParamsRec, e5, e3, MotionParamEstimator.search]
  obtain ⟨l1v, l1d⟩ := MotionParamEstimator.gridLevel_separable A C a b c0 hA hC (E.rV, E.rD) E.maxRange ha hb
  generalize MotionParamEstimator.gridLevel (paraboloid A 0 C a b c0) 5 (E.rV, E.rD) E.maxRange = p1 at l1v l1d ⊢
  obtain ⟨l2v, l2d⟩ := MotionParamEstimator.gridLevel_separable A C a b c0 hA hC p1 ((E.maxRange : RFLOAT) / 2)
    (by rw [abs_sub_comm]; linarith) (by rw [abs_sub_comm]; linarith)
  generalize MotionParamEstimator.gridLevel (paraboloid A 0 C a b c0) 5 p1 ((E.maxRange : RFLOAT) / 2) = p2
    at l2v l2d ⊢
  obtain ⟨l3v, l3d⟩ := MotionParamEstimator.gridLevel_separable A C a b c0 hA hC p2 ((E.maxRange : RFLOAT) / 2 / 2)
    (by rw [abs_sub_comm]; linarith) (by rw [abs_sub_comm]; linarith)
  constructor <;> linarith

/-- Witness of C16 (amended): the example estimator on `(v - 1)^2 + (d + 1)^2`. -/
theorem C16_search_converges_separable_witness :
    |(exampleEstimator.estimateTwoParamsRec (paraboloid 1 0 1 1 (-1) 0)).1 - 1|
        ≤ (exampleEstimator.maxRange : RFLOAT) / 2 ^ 3 ∧
    |(exampleEstimator.estimateTwoParamsRec (paraboloid 1 0 1 1 (-1) 0)).2 - (-1)|
        ≤ (exampleEstimator.maxRange : RFLOAT) / 2 ^ 3 :=
  C16_search_converges_separable exampleEstimator 1 1 1 (-1) 0 (by norm_num) (by norm_num)
    rfl rfl (by norm_num [exampleEstimator]) (by norm_num [exampleEstimator])

end Relion
